import Mathlib

/-!
Verification development for the nitro-hotupdate-cli build tool.

The definitions below are shallow embeddings of the TypeScript sources:

* `src/utils/digital-signature.ts` (canonical manifest serialization,
  signing, verification, key-pair parameter selection),
* `src/utils/hotupdate-builder.ts` (build orchestration, Metro asset
  enumeration, bundle asset-reference extraction),
* `src/utils/bundle-builder.ts` (supplementary asset copying, SHA-256
  content hashing),
* `src/utils/config-loader.ts` (configuration validation),
* `src/utils/package-manager.ts` (package index generation),
* `src/index.ts` (exit-status policy of the build commands).

File I/O, subprocesses and the Node `crypto` primitives are modelled as
explicit environments/parameters; everything else follows the source
line by line.  JavaScript strings are modelled as Lean `String`, byte
sequences as `List Nat` (each < 256), JSON documents as the `JsonVal`
inductive with insertion-ordered field lists.
-/

/-! ## A decidable total order on strings

Models the default JavaScript `Array.prototype.sort()` comparison used by
`Object.keys(manifest).sort()`: lexicographic comparison of the code-unit
sequences (identical to code-point order for the ASCII keys involved). -/

def charLeB (a b : Char) : Bool := a.toNat ≤ b.toNat

def strLeB : List Char → List Char → Bool
  | [], _ => true
  | _ :: _, [] => false
  | a :: as, b :: bs => if a = b then strLeB as bs else charLeB a b

def strLe (a b : String) : Prop := strLeB a.data b.data = true

instance : DecidableRel strLe := fun a b => by unfold strLe; infer_instance

/-- Models `Object.keys(x).sort()`: sort a list of keys by the code-unit order. -/
def sortStrings (l : List String) : List String := List.insertionSort strLe l

/-! ## JSON values

Insertion-ordered representation of the JavaScript objects the CLI
serializes with `JSON.stringify`. -/

inductive JsonVal where
  | nul : JsonVal
  | bool (b : Bool) : JsonVal
  | num (n : Int) : JsonVal
  | str (s : String) : JsonVal
  | arr (xs : List JsonVal) : JsonVal
  | obj (fields : List (String × JsonVal)) : JsonVal

/-- Hexadecimal digit characters, lowercase (as produced by JS number
formatting inside escape sequences). -/
def hexDigit (n : Nat) : Char :=
  if n < 10 then Char.ofNat (48 + n)
  else if n < 16 then Char.ofNat (87 + n)
  else '0'

/-- ECMA-262 `QuoteJSONString` escaping of a single character (BMP case). -/
def escapeChar (c : Char) : List Char :=
  if c = '"' then ['\\', '"']
  else if c = '\\' then ['\\', '\\']
  else if c = Char.ofNat 8 then ['\\', 'b']
  else if c = Char.ofNat 9 then ['\\', 't']
  else if c = Char.ofNat 10 then ['\\', 'n']
  else if c = Char.ofNat 12 then ['\\', 'f']
  else if c = Char.ofNat 13 then ['\\', 'r']
  else if c.toNat < 32 then
    ['\\', 'u', '0', '0', hexDigit (c.toNat / 16), hexDigit (c.toNat % 16)]
  else [c]

/-- ECMA-262 `QuoteJSONString`: a JSON string literal for `s`. -/
def quoteJS (s : String) : String :=
  ⟨'"' :: (s.data.map escapeChar).flatten ++ ['"']⟩

/-- Given the serialized key/value-string pairs of an object and the
`PropertyList` of the active array replacer, produce the member strings in
replacer order, skipping absent keys — the ECMA-262 `SerializeJSONObject`
step when a `PropertyList` is present.  Note the list is applied at EVERY
object level, not just the top. -/
def selectProps (props : List String) (m : List (String × String)) : List String :=
  props.filterMap (fun k => (m.lookup k).map (fun sv => quoteJS k ++ ":" ++ sv))

mutual

/-- Models `JSON.stringify(v, props)` with an array replacer `props` and no space
argument, as in `JSON.stringify(manifest, Object.keys(manifest).sort())`
(digital-signature.ts).  Array elements are all serialized; object members
are filtered and ordered by `props` at every nesting level. -/
def strJ (props : List String) : JsonVal → String
  | .nul => "null"
  | .bool b => cond b "true" "false"
  | .num n => toString n
  | .str s => quoteJS s
  | .arr xs => "[" ++ String.intercalate "," (strL props xs) ++ "]"
  | .obj l => "\x7b" ++ String.intercalate "," (selectProps props (strP props l)) ++ "\x7d"

/-- Serialize the elements of a JSON array (ECMA `SerializeJSONArray`). -/
def strL (props : List String) : List JsonVal → List String
  | [] => []
  | x :: xs => strJ props x :: strL props xs

/-- Serialize each field's value, keeping the key alongside. -/
def strP (props : List String) : List (String × JsonVal) → List (String × String)
  | [] => []
  | p :: rest => (p.1, strJ props p.2) :: strP props rest

end

/-- The three signature fields removed before canonicalization
(`delete manifest.signature` etc. in both `signManifest` and
`verifyManifest`). -/
def isSignatureField (k : String) : Bool :=
  k == "signature" || k == "publicKey" || k == "signatureTimestamp"

/-- Drop the three signature fields from a manifest's field list. -/
def stripSignatureFields (l : List (String × JsonVal)) : List (String × JsonVal) :=
  l.filter (fun p => !(isSignatureField p.1))

/-- The canonical signing string computed by `signManifest`/`verifyManifest`:
`JSON.stringify(manifest, Object.keys(manifest).sort())` after deleting the
three signature fields. -/
def canonicalSigningString (l : List (String × JsonVal)) : String :=
  strJ (sortStrings ((stripSignatureFields l).map Prod.fst))
    (.obj (stripSignatureFields l))

mutual

/-- From the spec's words (for comparison with the source-derived
`canonicalSigningString`): serialize "as JSON with object keys sorted
lexicographically at every level that is itself a plain mapping", keeping
every field of every nested object. -/
def specSortedSer : JsonVal → String
  | .nul => "null"
  | .bool b => cond b "true" "false"
  | .num n => toString n
  | .str s => quoteJS s
  | .arr xs => "[" ++ String.intercalate "," (specSortedSerL xs) ++ "]"
  | .obj l =>
      "\x7b" ++
        String.intercalate ","
          ((List.insertionSort (fun p q => strLe p.1 q.1) (specSortedSerP l)).map
            (fun p => quoteJS p.1 ++ ":" ++ p.2)) ++
      "\x7d"

/-- Spec-side serialization of array elements. -/
def specSortedSerL : List JsonVal → List String
  | [] => []
  | x :: xs => specSortedSer x :: specSortedSerL xs

/-- Spec-side serialization of object fields (before sorting by key). -/
def specSortedSerP : List (String × JsonVal) → List (String × String)
  | [] => []
  | p :: rest => (p.1, specSortedSer p.2) :: specSortedSerP rest

end

/-- From the spec's words: canonicalization described by the specification —
strip the three signature fields, then serialize with keys sorted at every
mapping level. -/
def specCanonicalString (l : List (String × JsonVal)) : String :=
  specSortedSer (.obj (stripSignatureFields l))

mutual

/-- Two JSON values with identical field values at every nesting level that
differ only in object key insertion order (keys duplicate-free). -/
def JEquiv : JsonVal → JsonVal → Prop
  | .nul, .nul => True
  | .bool a, .bool b => a = b
  | .num a, .num b => a = b
  | .str a, .str b => a = b
  | .arr xs, .arr ys => JEquivList xs ys
  | .obj l1, .obj l2 =>
      (l1.map Prod.fst).Nodup ∧ (l2.map Prod.fst).Nodup ∧
        ∃ lmid, JEquivPairs l1 lmid ∧ lmid.Perm l2
  | _, _ => False

/-- Elementwise `JEquiv` on array elements. -/
def JEquivList : List JsonVal → List JsonVal → Prop
  | [], [] => True
  | x :: xs, y :: ys => JEquiv x y ∧ JEquivList xs ys
  | _, _ => False

/-- Pointwise equality of keys and `JEquiv` of values on field lists. -/
def JEquivPairs : List (String × JsonVal) → List (String × JsonVal) → Prop
  | [], [] => True
  | p :: ps, q :: qs => p.1 = q.1 ∧ JEquiv p.2 q.2 ∧ JEquivPairs ps qs
  | _, _ => False

end

/-- Recursion principle for `JsonVal` exposing membership-based hypotheses
for the nested lists. -/
def JsonVal.recMem {motive : JsonVal → Prop}
    (hnul : motive .nul)
    (hbool : ∀ b, motive (.bool b))
    (hnum : ∀ n, motive (.num n))
    (hstr : ∀ s, motive (.str s))
    (harr : ∀ xs, (∀ x ∈ xs, motive x) → motive (.arr xs))
    (hobj : ∀ l, (∀ p ∈ l, motive p.2) → motive (.obj l)) :
    ∀ v, motive v
  | .nul => hnul
  | .bool b => hbool b
  | .num n => hnum n
  | .str s => hstr s
  | .arr xs =>
      harr xs (fun x hx =>
        have := hx
        JsonVal.recMem hnul hbool hnum hstr harr hobj x)
  | .obj l =>
      hobj l (fun p hp =>
        have := hp
        JsonVal.recMem hnul hbool hnum hstr harr hobj p.2)
termination_by v => sizeOf v
decreasing_by
  · have := List.sizeOf_lt_of_mem hx
    simp only [JsonVal.arr.sizeOf_spec]
    omega
  · have h1 := List.sizeOf_lt_of_mem hp
    have h2 : sizeOf p.2 < sizeOf p := by
      cases p
      simp only [Prod.mk.sizeOf_spec]
      omega
    simp only [JsonVal.obj.sizeOf_spec]
    omega

/-! ## Base64 (Node `Buffer` encoding used for signature bytes)

`sign.sign(privateKey).toString("base64")` on the signing side and
`Buffer.from(signature, "base64")` on the verifying side.  Standard RFC 4648
alphabet with `=` padding; the decoder is faithful on well-formed input
(which is all the repository ever feeds it). -/

def base64Alphabet : List Char :=
  (List.range 26).map (fun i => Char.ofNat (65 + i)) ++
    (List.range 26).map (fun i => Char.ofNat (97 + i)) ++
      (List.range 10).map (fun i => Char.ofNat (48 + i)) ++ ['+', '/']

def sextetChar (n : Nat) : Char := base64Alphabet.getD n 'A'

def charSextetVal (c : Char) : Nat := base64Alphabet.indexOf c

def b64encodeBytes : List Nat → List Char
  | a :: b :: c :: rest =>
      sextetChar (a / 4) :: sextetChar ((a % 4) * 16 + b / 16) ::
        sextetChar ((b % 16) * 4 + c / 64) :: sextetChar (c % 64) ::
          b64encodeBytes rest
  | [a, b] =>
      [sextetChar (a / 4), sextetChar ((a % 4) * 16 + b / 16),
       sextetChar ((b % 16) * 4), '=']
  | [a] => [sextetChar (a / 4), sextetChar ((a % 4) * 16), '=', '=']
  | [] => []

def b64decodeChars : List Char → List Nat
  | c1 :: c2 :: c3 :: c4 :: rest =>
      if c3 = '=' then
        [charSextetVal c1 * 4 + charSextetVal c2 / 16]
      else if c4 = '=' then
        [charSextetVal c1 * 4 + charSextetVal c2 / 16,
         charSextetVal c2 % 16 * 16 + charSextetVal c3 / 4]
      else
        (charSextetVal c1 * 4 + charSextetVal c2 / 16) ::
          (charSextetVal c2 % 16 * 16 + charSextetVal c3 / 4) ::
            (charSextetVal c3 % 4 * 64 + charSextetVal c4) ::
              b64decodeChars rest
  | _ => []

def b64encode (bs : List Nat) : String := ⟨b64encodeBytes bs⟩

def b64decode (s : String) : List Nat := b64decodeChars s.data

/-! ## JavaScript string splitting -/

/-- Split a character list at every occurrence of `sep`
(`String.prototype.split` with a single-character separator and no limit). -/
def splitOnChar (sep : Char) : List Char → List (List Char)
  | [] => [[]]
  | c :: rest =>
      let r := splitOnChar sep rest
      if c = sep then [] :: r
      else
        match r with
        | h :: t => (c :: h) :: t
        | [] => [[c]]

/-- Models `s.split(sep, 2)`: JavaScript's split with limit 2 truncates the field
list to the first two fields (it does NOT return the remainder). -/
def jsSplit2 (sep : Char) (s : String) : List String :=
  ((splitOnChar sep s.data).take 2).map (fun l => ⟨l⟩)

/-- Models `algorithm.split("-")[1]` — the hash algorithm name derived from the
signature algorithm identifier; `none` models `undefined` (no dash). -/
def hashAlgOf (alg : String) : Option String :=
  ((splitOnChar '-' alg.data).get? 1).map (fun l => ⟨l⟩)

/-! ## Digital signatures (`src/utils/digital-signature.ts`)

The Node `crypto` primitives (`createSign`/`createVerify`/key derivation)
are abstracted as a `CryptoModel`; its fields state exactly what the
library guarantees for valid key material: the round trip verifies, real
signatures are non-empty byte strings, bytes are bytes.  Everything the
repository itself does (canonicalization, format assembly/parsing, base64,
hash-algorithm selection) is embedded concretely. -/

/-- The two members of the TS union type `"RSA-SHA256" | "ECDSA-SHA256"`. -/
inductive SigAlgorithm where
  | rsaSHA256 : SigAlgorithm
  | ecdsaSHA256 : SigAlgorithm
deriving DecidableEq

def SigAlgorithm.toName : SigAlgorithm → String
  | .rsaSHA256 => "RSA-SHA256"
  | .ecdsaSHA256 => "ECDSA-SHA256"

/-- Abstraction of the Node `crypto` asymmetric-signature primitives over
valid key material. -/
structure CryptoModel where
  sign : String → String → String → List Nat
  verify : String → String → String → List Nat → Except String Bool
  derivePublic : String → String
  sign_verify : ∀ hashAlg sk data,
    verify hashAlg (derivePublic sk) data (sign hashAlg sk data) = .ok true
  sign_ne : ∀ hashAlg sk data, sign hashAlg sk data ≠ []
  sign_bytes : ∀ hashAlg sk data, ∀ b ∈ sign hashAlg sk data, b < 256

/-- Return type of `signData`. -/
structure SignatureResult where
  signature : String
  algorithm : String
  publicKey : String
  timestamp : Nat
deriving DecidableEq

/-- Return type of `verifySignature`/`verifyManifest`; optional fields model
the TS optional properties. -/
structure VerificationResult where
  isValid : Bool
  error : Option String := none
  algorithm : Option String := none
  timestamp : Option Int := none
deriving DecidableEq

/-- Embeds `DigitalSignature.signData`.  `now` stands for `Date.now()`.  The final
`else` branch of the source (`Unsupported algorithm`) is unreachable here
because `SigAlgorithm` covers the TS union exactly; the `none` case of the
hash-algorithm lookup models the caught-and-rethrown exception path. -/
def signData (C : CryptoModel) (alg : SigAlgorithm) (data sk : String)
    (now : Nat) : Except String SignatureResult :=
  match hashAlgOf alg.toName with
  | none => .error "Failed to sign data: invalid digest"
  | some hashAlg =>
      let sigBytes := C.sign hashAlg sk data
      let signature := b64encode sigBytes
      let publicKey := C.derivePublic sk
      .ok { signature := alg.toName ++ ":" ++ signature,
            algorithm := alg.toName,
            publicKey := publicKey,
            timestamp := now }

def invalidFormatMsg : String := "Invalid signature format. Expected 'ALGORITHM:SIGNATURE'"

/-- Embeds `DigitalSignature.verifySignature`.  Total: every exception path of the
source's `try/catch` is a value here.  The `none` hash-algorithm case models
`crypto.createVerify(undefined)` throwing and being caught (the exact Node
error text is abstracted). -/
def verifySignature (C : CryptoModel) (data sigWithAlg pk : String)
    (now : Nat) : VerificationResult :=
  let parts := jsSplit2 ':' sigWithAlg
  let algorithm : String := parts.getD 0 ""
  let signature : String := parts.getD 1 ""
  if algorithm = "" ∨ signature = "" then
    { isValid := false, error := some invalidFormatMsg }
  else
    match hashAlgOf algorithm with
    | none =>
        { isValid := false, error := some "Verification failed: invalid digest" }
    | some hashAlg =>
        let sigBytes := b64decode signature
        match C.verify hashAlg pk data sigBytes with
        | .error e =>
            { isValid := false, error := some ("Verification failed: " ++ e) }
        | .ok b =>
            { isValid := b, algorithm := some algorithm,
              timestamp := some (Int.ofNat now) }

/-- JavaScript truthiness test for a possibly-absent manifest field
(`if (!manifest.signature)` and `else if (manifest.publicKey)`). -/
def jsFalsyField (v : Option JsonVal) : Bool :=
  match v with
  | none => true
  | some .nul => true
  | some (.bool b) => !b
  | some (.num n) => n == 0
  | some (.str s) => s == ""
  | some (.arr _) => false
  | some (.obj _) => false

/-- Embeds `DigitalSignature.signManifest`, on an already-parsed manifest field
list; file reading/writing is outside the model.  Returns the updated field
list together with the `SignatureResult`.  The three signature fields are
deleted, the canonical string is signed, and the three result values are
assigned back (appended in insertion order: `signature`, `publicKey`,
`signatureTimestamp`). -/
def signManifest (C : CryptoModel) (alg : SigAlgorithm)
    (l : List (String × JsonVal)) (sk : String) (now : Nat) :
    Except String (List (String × JsonVal) × SignatureResult) :=
  let stripped := stripSignatureFields l
  let canonical := canonicalSigningString l
  match signData C alg canonical sk now with
  | .error e => .error ("Failed to sign manifest: " ++ e)
  | .ok r =>
      .ok (stripped ++
            [("signature", .str r.signature),
             ("publicKey", .str r.publicKey),
             ("signatureTimestamp", .num (Int.ofNat r.timestamp))], r)

/-- Embeds `DigitalSignature.verifyManifest`, on an already-parsed manifest field
list and an optional external public key.  Branches that would throw inside
the source's `try/catch` because a truthy field is not a string are modelled
as caught-error results with abstracted messages. -/
def verifyManifest (C : CryptoModel) (l : List (String × JsonVal))
    (pkFile : Option String) (now : Nat) : VerificationResult :=
  if jsFalsyField (l.lookup "signature") then
    { isValid := false, error := some "No signature found in manifest" }
  else
    match pkFile, l.lookup "publicKey" with
    | none, pkField =>
        if jsFalsyField pkField then
          { isValid := false, error := some "No public key available for verification" }
        else
          match pkField with
          | some (.str pk) => verifyManifestBody C l pk now
          | _ =>
              { isValid := false,
                error := some "Verification failed: invalid public key" }
    | some pk, _ => verifyManifestBody C l pk now
where
  /-- Strip fields, canonicalize, verify, and override the result timestamp
  with the manifest's `signatureTimestamp` (spread `{...result, timestamp}`). -/
  verifyManifestBody (C : CryptoModel) (l : List (String × JsonVal))
      (pk : String) (now : Nat) : VerificationResult :=
    match l.lookup "signature" with
    | some (.str s) =>
        let ts : Option Int :=
          match l.lookup "signatureTimestamp" with
          | some (.num n) => some n
          | _ => none
        let r := verifySignature C (canonicalSigningString l) s pk now
        { r with timestamp := ts }
    | _ =>
        { isValid := false,
          error := some "Verification failed: signature is not a string" }

/-! ## Key-pair parameter selection (`generateAndSaveKeyPair`) -/

/-- The TS interface `SignatureConfig` as passed to the constructor
(`keySize?` optional). -/
structure SignatureConfigIn where
  algorithm : SigAlgorithm
  keySize : Option Nat := none

/-- The constructor's effective configuration:
`this.config = { keySize: 2048, ...config }` — an absent `keySize` keeps
the default 2048, a present one overrides it. -/
structure SignatureConfigEff where
  algorithm : SigAlgorithm
  keySize : Nat
deriving DecidableEq

def mkDigitalSignatureConfig (c : SignatureConfigIn) : SignatureConfigEff :=
  { algorithm := c.algorithm, keySize := c.keySize.getD 2048 }

/-- The named-curve selection inside `generateAndSaveKeyPair`'s ECDSA
branch: a conditional chain with `secp521r1` as the catch-all. -/
def ecdsaNamedCurve (keySize : Nat) : String :=
  if keySize = 256 then "prime256v1"
  else if keySize = 384 then "secp384r1"
  else "secp521r1"

/-- The key-generation request `generateAndSaveKeyPair` issues. -/
inductive KeyGenRequest where
  | rsa (modulusLength : Nat) : KeyGenRequest
  | ec (namedCurve : String) : KeyGenRequest
deriving DecidableEq

/-- Which generator `generateAndSaveKeyPair` calls and with what parameter.
The source's final `else` (`Unsupported algorithm`) is unreachable because
the TS union has exactly these two members. -/
def keyGenRequest (cfg : SignatureConfigEff) : KeyGenRequest :=
  match cfg.algorithm with
  | .rsaSHA256 => .rsa cfg.keySize
  | .ecdsaSHA256 => .ec (ecdsaNamedCurve cfg.keySize)

/-! ## SHA-256 (`crypto.createHash("sha256")`, streamed over file bytes)

`BundleBuilder.calculateSHA256` feeds the file's bytes through a SHA-256
accumulator and hex-encodes the digest.  The accumulated digest equals the
digest of the whole byte sequence, which is what is embedded here (the
chunked streaming itself is an I/O detail). -/

def w32 : Nat := 4294967296

def rotr32 (n x : Nat) : Nat := ((x >>> n) ||| (x <<< (32 - n))) % w32

def sha256K : List Nat :=
  [1116352408, 1899447441, 3049323471, 3921009573, 961987163,
   1508970993, 2453635748, 2870763221, 3624381080, 310598401,
   607225278, 1426881987, 1925078388, 2162078206, 2614888103,
   3248222580, 3835390401, 4022224774, 264347078, 604807628,
   770255983, 1249150122, 1555081692, 1996064986, 2554220882,
   2821834349, 2952996808, 3210313671, 3336571891, 3584528711,
   113926993, 338241895, 666307205, 773529912, 1294757372,
   1396182291, 1695183700, 1986661051, 2177026350, 2456956037,
   2730485921, 2820302411, 3259730800, 3345764771, 3516065817,
   3600352804, 4094571909, 275423344, 430227734, 506948616,
   659060556, 883997877, 958139571, 1322822218, 1537002063,
   1747873779, 1955562222, 2024104815, 2227730452, 2361852424,
   2428436474, 2756734187, 3204031479, 3329325298]

def sha256H0 : List Nat :=
  [1779033703, 3144134277, 1013904242, 2773480762,
   1359893119, 2600822924, 528734635, 1541459225]

def smallSigma0 (x : Nat) : Nat := rotr32 7 x ^^^ rotr32 18 x ^^^ (x >>> 3)
def smallSigma1 (x : Nat) : Nat := rotr32 17 x ^^^ rotr32 19 x ^^^ (x >>> 10)
def bigSigma0 (x : Nat) : Nat := rotr32 2 x ^^^ rotr32 13 x ^^^ rotr32 22 x
def bigSigma1 (x : Nat) : Nat := rotr32 6 x ^^^ rotr32 11 x ^^^ rotr32 25 x
def chFn (x y z : Nat) : Nat := (x &&& y) ^^^ ((x ^^^ (w32 - 1)) &&& z)
def majFn (x y z : Nat) : Nat := (x &&& y) ^^^ (x &&& z) ^^^ (y &&& z)

/-- Big-endian 8-byte encoding of a (bit-)length. -/
def be8Bytes (n : Nat) : List Nat :=
  [(n >>> 56) % 256, (n >>> 48) % 256, (n >>> 40) % 256, (n >>> 32) % 256,
   (n >>> 24) % 256, (n >>> 16) % 256, (n >>> 8) % 256, n % 256]

/-- SHA-256 padding: append `0x80`, zeros to 56 mod 64, then the bit length. -/
def sha256pad (msg : List Nat) : List Nat :=
  let L := msg.length
  let k := (64 + 56 - ((L + 1) % 64)) % 64
  msg ++ [0x80] ++ List.replicate k 0 ++ be8Bytes (L * 8)

/-- Group bytes into big-endian 32-bit words (input length a multiple of 4). -/
def bytesToWords : List Nat → List Nat
  | b0 :: b1 :: b2 :: b3 :: rest =>
      (b0 * 16777216 + b1 * 65536 + b2 * 256 + b3) :: bytesToWords rest
  | _ => []

/-- Extend the 16-word message schedule by `k` further words. -/
def extendSchedule : List Nat → Nat → List Nat
  | w, 0 => w
  | w, Nat.succ k =>
      let n := w.length
      let t := (smallSigma1 (w.getD (n - 2) 0) + w.getD (n - 7) 0 +
                smallSigma0 (w.getD (n - 15) 0) + w.getD (n - 16) 0) % w32
      extendSchedule (w ++ [t]) k

/-- One SHA-256 compression round; the state is `[a,b,c,d,e,f,g,h]`. -/
def sha256Round (st : List Nat) (kw : Nat × Nat) : List Nat :=
  match st with
  | [a, b, c, d, e, f, g, h] =>
      let t1 := (h + bigSigma1 e + chFn e f g + kw.1 + kw.2) % w32
      let t2 := (bigSigma0 a + majFn a b c) % w32
      [(t1 + t2) % w32, a, b, c, (d + t1) % w32, e, f, g]
  | other => other

/-- Compress one 64-byte block into the running hash state. -/
def sha256Block (h : List Nat) (block : List Nat) : List Nat :=
  let w := extendSchedule (bytesToWords block) 48
  let st := (sha256K.zip w).foldl sha256Round h
  List.zipWith (fun x y => (x + y) % w32) h st

/-- Split a padded message into 64-byte blocks.  The fuel argument (any
value at least the list length) only bounds the recursion; each step
consumes 64 bytes. -/
def chunks64Fuel : Nat → List Nat → List (List Nat)
  | 0, _ => []
  | _, [] => []
  | Nat.succ fuel, b :: rest =>
      (b :: rest).take 64 :: chunks64Fuel fuel ((b :: rest).drop 64)

def chunks64 (l : List Nat) : List (List Nat) := chunks64Fuel l.length l

/-- Lower-case hex of a 32-bit word, 8 digits. -/
def hex8 (n : Nat) : List Char :=
  [hexDigit ((n >>> 28) % 16), hexDigit ((n >>> 24) % 16),
   hexDigit ((n >>> 20) % 16), hexDigit ((n >>> 16) % 16),
   hexDigit ((n >>> 12) % 16), hexDigit ((n >>> 8) % 16),
   hexDigit ((n >>> 4) % 16), hexDigit (n % 16)]

/-- The hex-encoded SHA-256 digest of a byte sequence
(`crypto.createHash("sha256")` updated with the bytes, `digest("hex")`). -/
def sha256hex (msg : List Nat) : String :=
  ⟨(((chunks64 (sha256pad msg)).foldl sha256Block sha256H0).map hex8).flatten⟩

/-! ## Path helpers (Node `path` on the POSIX-separator view) -/

/-- The portion of `cs` after the last `/` (`path.basename`). -/
def basenameChars (cs : List Char) : List Char :=
  (splitOnChar '/' cs).getLastD []

def basenameOf (s : String) : String := ⟨basenameChars s.data⟩

/-- The suffix of `cs` starting at its last `.`, if any. -/
def extTail : List Char → Option (List Char)
  | [] => none
  | c :: rest =>
      match extTail rest with
      | some t => some t
      | none => if c = '.' then some (c :: rest) else none

/-- Models `path.extname` on a basename: the suffix from the last `.`, empty when
there is no dot or the only dot leads a dotfile. -/
def extnameChars (base : List Char) : List Char :=
  match base with
  | [] => []
  | _ :: rest =>
      match extTail rest with
      | some t => t
      | none => []

/-- Models `path.extname(p).substring(1)`: the extension without its dot. -/
def extTypeOf (p : String) : String :=
  match extnameChars (basenameChars p.data) with
  | _ :: t => ⟨t⟩
  | [] => ""

/-- Models `path.parse(name).name`: the basename with its extension removed. -/
def stemChars (base : List Char) : List Char :=
  base.take (base.length - (extnameChars base).length)

/-- Models `.replace(/\\/g, "/")` — normalize Windows separators. -/
def normalizeSlashes (s : String) : String :=
  ⟨s.data.map (fun c => if c = '\\' then '/' else c)⟩

/-! ## Asset collection (`analyzeMetroAssets` and `BundleBuilder.copyAssets`) -/

/-- One collected asset record (TS interface `AssetFile`; `sha256?` is the
optional content-hash field). -/
structure AssetFile where
  name : String
  type : String
  httpServerLocation : String
  scales : List Rat
  hash : String
  sha256 : Option String := none
deriving DecidableEq

/-- The fixed ordered density-bucket directories scanned by
`analyzeMetroAssets`. -/
def metroAssetDirs : List String :=
  ["drawable-mdpi", "drawable-hdpi", "drawable-xhdpi", "drawable-xxhdpi",
   "drawable-xxxhdpi", "raw"]

/-- Embeds `getDensityScale`: the static density→scale table with `[1]` fallback. -/
def getDensityScale (dirName : String) : List Rat :=
  if dirName = "drawable-mdpi" then [1]
  else if dirName = "drawable-hdpi" then [(3 : Rat) / 2]
  else if dirName = "drawable-xhdpi" then [2]
  else if dirName = "drawable-xxhdpi" then [3]
  else if dirName = "drawable-xxxhdpi" then [4]
  else if dirName = "raw" then [1]
  else [1]

/-- A directory entry as seen through `fs.readdir` + `fs.stat`. -/
structure DirEntry where
  name : String
  isFile : Bool
  mtimeMs : Nat
deriving DecidableEq

/-- The bundler-output assets directory: which density buckets exist and
their entries. -/
structure MetroFs where
  dirs : String → Option (List DirEntry)

/-- The record `analyzeMetroAssets` builds for one file of one density
bucket.  The record's `hash` is the mtime-derived token
(`stats.mtime.getTime().toString()`); the optional `sha256` field is never
assigned by this function. -/
def metroAssetRecord (dir : String) (e : DirEntry) : AssetFile :=
  { name := e.name,
    type := extTypeOf e.name,
    httpServerLocation := dir ++ "/" ++ e.name,
    scales := getDensityScale dir,
    hash := toString e.mtimeMs,
    sha256 := none }

/-- Embeds `HotUpdateBuilder.analyzeMetroAssets`: enumerate the density buckets in
their fixed order; every plain file yields one record. -/
def analyzeMetroAssets (fs : MetroFs) : List AssetFile :=
  metroAssetDirs.flatMap (fun dir =>
    match fs.dirs dir with
    | none => []
    | some entries =>
        entries.filterMap (fun e =>
          if e.isFile then some (metroAssetRecord dir e) else none))

/-- A file matched by one glob pattern (relative path, stat data, bytes). -/
structure GlobFile where
  relPath : String
  isFile : Bool
  mtimeMs : Nat
  content : List Nat
deriving DecidableEq

/-- The glob library: pattern ↦ matches (the exclude list is already
applied inside, as `glob(pattern, { ignore: excludePatterns })`). -/
structure GlobEnv where
  glob : String → List GlobFile

/-- The record `copyAssets` builds for one matched file: the `hash` keeps
the legacy mtime token and `sha256` is the hex SHA-256 of the file's bytes
(empty string for a non-file match, which skips hashing). -/
def copyAssetRecord (f : GlobFile) : AssetFile :=
  { name := basenameOf f.relPath,
    type := extTypeOf f.relPath,
    httpServerLocation := normalizeSlashes ("assets/" ++ f.relPath),
    scales := [1],
    hash := toString f.mtimeMs,
    sha256 := some (if f.isFile then sha256hex f.content else "") }

/-- Embeds `BundleBuilder.copyAssets` (the current revision with content hashing). -/
def copyAssets (env : GlobEnv) (sourcePatterns : List String) : List AssetFile :=
  sourcePatterns.flatMap (fun pattern =>
    (env.glob pattern).map copyAssetRecord)

/-! ## Bundle asset-reference extraction (`verifyAssetConsistency`)

The source scans the bundle text with two global regexes:

  `/require\(['"]([^'"]+\.(?:png|jpg|jpeg|gif|webp|svg))['"]]/g`
  `/import\s+[^'"]+\s+from\s+['"]([^'"]+\.(?:png|jpg|jpeg|gif|webp|svg))['"]]/g`

Both end in the character class `['"]` followed by a LITERAL `]`: after the
closing quote the next character must be `]`.  The scanner below implements
exactly these patterns (leftmost matches, continuing after each match, as
`exec` with the `g` flag does). -/

def imageExts : List (List Char) :=
  [['p', 'n', 'g'], ['j', 'p', 'g'], ['j', 'p', 'e', 'g'],
   ['g', 'i', 'f'], ['w', 'e', 'b', 'p'], ['s', 'v', 'g']]

/-- A single or double quote (the class `['"]` / the negation `[^'"]`). -/
def isQuoteChar (c : Char) : Bool := c = Char.ofNat 39 || c = '"'

/-- JavaScript `\s` on the common whitespace characters. -/
def isJsWs (c : Char) : Bool :=
  c = ' ' || c = Char.ofNat 9 || c = Char.ofNat 10 || c = Char.ofNat 13 ||
    c = Char.ofNat 11 || c = Char.ofNat 12

/-- Does `cs` end in `.` followed by one of the image extensions, with at
least one character before the dot (`[^'"]+\.(?:png|...)`)? -/
def hasImageSuffix (cs : List Char) : Bool :=
  imageExts.any (fun ext =>
    cs.length ≥ ext.length + 2 &&
      cs.drop (cs.length - ext.length) == ext &&
      cs.getD (cs.length - ext.length - 1) ' ' == '.')

/-- Match `['"]([^'"]+\.ext)['"]]` at the start of `cs`: an opening quote,
the captured path (non-empty, quote-free, image-suffixed), a closing quote
(either kind), then a literal `]`.  Returns the captured path and the total
number of characters consumed. -/
def matchQuotedImagePath (cs : List Char) : Option (List Char × Nat) :=
  match cs with
  | q :: rest =>
      if isQuoteChar q then
        let path := rest.takeWhile (fun c => !(isQuoteChar c))
        let after := rest.drop path.length
        match after with
        | q2 :: br :: _ =>
            if isQuoteChar q2 && br = ']' && hasImageSuffix path then
              some (path, path.length + 3)
            else none
        | _ => none
      else none
  | [] => none

/-- Match the part of the import pattern after the literal `import`:
`\s+[^'"]+\s+from\s+` followed by the quoted path.  The region before the
opening quote is quote-free, so it must be the maximal quote-free run; that
run must end in whitespace preceded by `from` preceded by a segment that
starts and ends in whitespace with at least one character in between.
Returns the captured path and the characters consumed after `import`. -/
def matchImportTail (cs : List Char) : Option (List Char × Nat) :=
  let seg := cs.takeWhile (fun c => !(isQuoteChar c))
  let ws3 := seg.reverse.takeWhile isJsWs
  let seg2 := seg.take (seg.length - ws3.length)
  let r := seg2.take (seg2.length - 4)
  if ws3.length ≥ 1 &&
      seg2.drop (seg2.length - 4) == ['f', 'r', 'o', 'm'] &&
      r.length ≥ 3 &&
      isJsWs (r.getD 0 ' ') && isJsWs (r.getD (r.length - 1) ' ') then
    match matchQuotedImagePath (cs.drop seg.length) with
    | some (path, consumed) => some (path, seg.length + consumed)
    | none => none
  else none

/-- All captures of the `require(...)` pattern, leftmost first, resuming
after each full match (`exec` with the `g` flag).  The fuel argument (any
value at least the text length) only bounds the recursion: every step
consumes at least one character. -/
def scanRequireFuel : Nat → List Char → List (List Char)
  | 0, _ => []
  | _, [] => []
  | Nat.succ fuel, c :: rest =>
      if (['r', 'e', 'q', 'u', 'i', 'r', 'e', '(']).isPrefixOf (c :: rest) then
        match matchQuotedImagePath ((c :: rest).drop 8) with
        | some (path, consumed) =>
            path :: scanRequireFuel fuel ((c :: rest).drop (8 + consumed))
        | none => scanRequireFuel fuel rest
      else scanRequireFuel fuel rest

def scanRequire (cs : List Char) : List (List Char) :=
  scanRequireFuel cs.length cs

/-- All captures of the `import ... from "..."` pattern. -/
def scanImportFuel : Nat → List Char → List (List Char)
  | 0, _ => []
  | _, [] => []
  | Nat.succ fuel, c :: rest =>
      if (['i', 'm', 'p', 'o', 'r', 't']).isPrefixOf (c :: rest) then
        match matchImportTail ((c :: rest).drop 6) with
        | some (path, consumed) =>
            path :: scanImportFuel fuel ((c :: rest).drop (6 + consumed))
        | none => scanImportFuel fuel rest
      else scanImportFuel fuel rest

def scanImport (cs : List Char) : List (List Char) :=
  scanImportFuel cs.length cs

/-- The `bundleAssets` set: captures of both patterns, deduplicated
(JS `Set` keeps first-insertion order). -/
def extractAssetRefs (bundleContent : String) : List String :=
  ((scanRequire bundleContent.data ++ scanImport bundleContent.data).eraseDups).map
    (fun l => (⟨l⟩ : String))

/-- Models `haystack.includes(needle)` on character lists. -/
def containsSub (needle : List Char) : List Char → Bool
  | [] => needle.isEmpty
  | c :: rest => needle.isPrefixOf (c :: rest) || containsSub needle rest

/-- Embeds `HotUpdateBuilder.verifyAssetConsistency`: extract the referenced asset
paths, then warn for each one whose density-stripped base name is not
contained in any Metro asset name (`name.includes(assetNameWithoutExt)`).
Returns `(valid, warnings)`; the caller only logs the warnings. -/
def verifyAssetConsistency (bundleContent : String) (fs : MetroFs) :
    Bool × List String :=
  let bundleAssets := extractAssetRefs bundleContent
  let metroNames := (analyzeMetroAssets fs).map (fun a => a.name)
  let warnings := bundleAssets.filterMap (fun assetPath =>
    let assetName := basenameChars assetPath.data
    let assetNameNoExt := stemChars assetName
    if metroNames.any (fun nm => containsSub assetNameNoExt nm.data) then none
    else some ("Asset referenced in bundle but not found in Metro output: " ++
                assetPath))
  (warnings.length == 0, warnings)

/-! ## Build orchestration (`HotUpdateBuilder.buildAllPlatforms`,
`src/index.ts` exit policy) -/

/-- The supported platform enum (`"ios" | "android"`). -/
inductive Platform where
  | ios : Platform
  | android : Platform
deriving DecidableEq

def Platform.toName : Platform → String
  | .ios => "ios"
  | .android => "android"

/-- The parts of `BuildConfig` the orchestrator reads. -/
structure BuildConfig where
  platforms : List Platform
  version : String
  outputPath : String
  bundleName : Option String := none
deriving DecidableEq

/-- One entry of the result list (TS interface `BuildResult`). -/
structure BuildResult where
  success : Bool
  platform : Platform
  bundlePath : String
  assetsPath : Option String := none
  zipPath : String
  size : Nat
  error : Option String := none
deriving DecidableEq

/-- What one platform's pipeline does, as seen by the orchestrator:
`crash` — an exception escaping `buildPlatform` (e.g. from the directory
preparation outside its `try`), caught by `buildAllPlatforms`' own catch;
`stageFail` — an exception inside `buildPlatform`'s `try` (bundler crash,
bundle validation, manifest, packaging), caught there; `built` — the happy
path with the resulting ZIP size. -/
inductive PlatformOutcome where
  | crash (msg : String) : PlatformOutcome
  | stageFail (msg : String) : PlatformOutcome
  | built (zipSize : Nat) : PlatformOutcome
deriving DecidableEq

/-- Models `path.join` with POSIX separators. -/
def pathJoin (parts : List String) : String := String.intercalate "/" parts

def bundlePathFor (cfg : BuildConfig) (p : Platform) : String :=
  pathJoin [cfg.outputPath, p.toName, "bundles",
    (cfg.bundleName.getD "index") ++ "." ++ p.toName ++ ".bundle"]

/-- The `BuildResult` produced for one platform: the catch in
`buildAllPlatforms` (for `crash`), the catch in `buildPlatform` (for
`stageFail`), or the success record. -/
def buildPlatformResult (cfg : BuildConfig) (env : Platform → PlatformOutcome)
    (p : Platform) : BuildResult :=
  match env p with
  | .crash msg =>
      { success := false, platform := p, bundlePath := "", zipPath := "",
        size := 0, error := some msg }
  | .stageFail msg =>
      { success := false, platform := p, bundlePath := bundlePathFor cfg p,
        zipPath := "", size := 0, error := some msg }
  | .built zipSize =>
      { success := true, platform := p, bundlePath := bundlePathFor cfg p,
        assetsPath := some (pathJoin [cfg.outputPath, p.toName, "assets"]),
        zipPath := pathJoin [cfg.outputPath,
          p.toName ++ "-v" ++ cfg.version ++ "-hotupdate.zip"],
        size := zipSize }

/-- Embeds `HotUpdateBuilder.buildAllPlatforms`: loop over the requested platforms,
pushing one result each; a failure for one platform never breaks the loop. -/
def buildAllPlatforms (cfg : BuildConfig) (env : Platform → PlatformOutcome) :
    List BuildResult :=
  cfg.platforms.map (buildPlatformResult cfg env)

/-- The build commands' exit policy (`src/index.ts`):
`results.filter(r => !r.success)`; exit 1 when any build failed, 0 otherwise. -/
def exitCodeAfterBuild (results : List BuildResult) : Nat :=
  if (results.filter (fun r => !r.success)).length > 0 then 1 else 0

/-! ## Configuration validation (`ConfigLoader.validateConfig`) -/

def isDigitCh (c : Char) : Bool := 48 ≤ c.toNat && c.toNat ≤ 57
def isAlphaCh (c : Char) : Bool :=
  (65 ≤ c.toNat && c.toNat ≤ 90) || (97 ≤ c.toNat && c.toNat ≤ 122)
def isIdentCh (c : Char) : Bool := isDigitCh c || isAlphaCh c || c = '-'

/-- A semver numeric identifier: digits only, no leading zero. -/
def numericIdentOk (cs : List Char) : Bool :=
  !cs.isEmpty && cs.all isDigitCh &&
    (cs.length == 1 || !(cs.getD 0 ' ' == '0'))

/-- A semver prerelease identifier: numeric, or alphanumeric/hyphen with at
least one non-digit. -/
def prereleaseIdentOk (cs : List Char) : Bool :=
  numericIdentOk cs ||
    (!cs.isEmpty && cs.all isIdentCh && cs.any (fun c => !(isDigitCh c)))

/-- A semver build identifier: non-empty alphanumeric/hyphen. -/
def buildIdentOk (cs : List Char) : Bool := !cs.isEmpty && cs.all isIdentCh

/-- Split at the first occurrence of `sep`; `none` when `sep` is absent. -/
def splitFirstCh (sep : Char) : List Char → List Char × Option (List Char)
  | [] => ([], none)
  | c :: rest =>
      if c = sep then ([], some rest)
      else
        let r := splitFirstCh sep rest
        (c :: r.1, r.2)

/-- Modelled from the spec: validity of a semantic version — the external
`semver` library's `valid()` (its full-version grammar: optional leading
`v`, three dot-separated numeric identifiers without leading zeros, optional
`-prerelease` and `+build` identifier groups; the library's 256-character
and numeric-size limits are not modelled). -/
def semverValid (s : String) : Bool :=
  let cs := match s.data with
            | 'v' :: rest => rest
            | other => other
  let corePre_build := splitFirstCh '+' cs
  let core_pre := splitFirstCh '-' corePre_build.1
  let mainParts := splitOnChar '.' core_pre.1
  (mainParts.length == 3 && mainParts.all numericIdentOk) &&
    (match core_pre.2 with
     | none => true
     | some pre => (splitOnChar '.' pre).all prereleaseIdentOk) &&
    (match corePre_build.2 with
     | none => true
     | some build => (splitOnChar '.' build).all buildIdentOk)

/-- The `signature` section of `hotupdate.config.json` (all
optional-but-`enabled` fields, as in the TS interface). -/
structure HotSignatureCfg where
  enabled : Bool
  algorithm : Option String := none
  privateKeyPath : Option String := none
  publicKeyPath : Option String := none
  autoGenerate : Option Bool := none
deriving DecidableEq

/-- The parts of `HotUpdateConfig` that `validateConfig` reads. -/
structure HotUpdateCfg where
  projectPath : String
  platforms : List String
  version : Option String := none
  signatureCfg : Option HotSignatureCfg := none
deriving DecidableEq

/-- The filesystem facts `validateConfig` consults. -/
structure ValidateFsEnv where
  projectPathExists : Bool
  packageJsonExists : Bool
  hasReactNativeDep : Bool
  privateKeyExists : String → Bool

/-- JS truthiness of an optional string option (`config.build.version`,
`config.signature.privateKeyPath`). -/
def optStrTruthy (o : Option String) : Bool :=
  match o with
  | none => false
  | some s => !(s == "")

/-- Embeds `ConfigLoader.validateConfig`: either an error (the thrown message) or
the list of warnings printed on the way to success.  Checks run in source
order: project path, package.json + react-native dependency, platforms,
version format, signature algorithm, private-key presence (the last one
only warns).  Like the version check, the algorithm check is guarded by JS
truthiness (`config.signature.algorithm && !validAlgorithms.includes(...)`):
an absent or empty-string algorithm skips it. -/
def validateConfig (fs : ValidateFsEnv) (config : HotUpdateCfg) :
    Except String (List String) :=
  if !fs.projectPathExists then
    .error ("Project path does not exist: " ++ config.projectPath)
  else if !fs.packageJsonExists then
    .error ("package.json not found in project: " ++ config.projectPath)
  else if !fs.hasReactNativeDep then
    .error ("Not a React Native project: " ++ config.projectPath)
  else
    match config.platforms.find? (fun p => !(p == "ios" || p == "android")) with
    | some p =>
        .error ("Invalid platform: " ++ p ++ ". Valid platforms: ios, android")
    | none =>
        if optStrTruthy config.version &&
            !(semverValid (config.version.getD "")) then
          .error ("Invalid version format: " ++ config.version.getD "" ++
                  ". Use semantic versioning (e.g. 1.0.0)")
        else
          match config.signatureCfg with
          | some sig =>
              if sig.enabled then
                if optStrTruthy sig.algorithm &&
                    !(sig.algorithm.getD "" == "RSA-SHA256" ||
                      sig.algorithm.getD "" == "ECDSA-SHA256") then
                  .error ("Invalid signature algorithm: " ++
                          sig.algorithm.getD "" ++
                          ". Valid algorithms: RSA-SHA256, ECDSA-SHA256")
                else validateKeyWarning fs sig
              else .ok []
          | none => .ok []
where
  /-- The private-key existence check: performed only when `autoGenerate` is
  not `true` (JS `!config.signature.autoGenerate` is also true for an absent
  field) and a key path is configured; a missing file only warns. -/
  validateKeyWarning (fs : ValidateFsEnv) (sig : HotSignatureCfg) :
      Except String (List String) :=
    if !(sig.autoGenerate.getD false) && optStrTruthy sig.privateKeyPath &&
        !fs.privateKeyExists (sig.privateKeyPath.getD "") then
      .ok ["⚠️  Private key not found: " ++ sig.privateKeyPath.getD "" ++
           ". Will be auto-generated."]
    else .ok []

/-- Modelled from the spec: the signature-aware build pipeline that consumes
the validated configuration (its `HotUpdateBuilder` revision is not among
the sources).  Per the spec's ConfigValidator contract, a missing private
key with auto-generation available "downgrades to a warning and forces
auto-generation": the effective auto-generate flag is forced on when the
configured key file is absent. -/
def effectiveAutoGenerate (fs : ValidateFsEnv) (sig : HotSignatureCfg) : Bool :=
  if optStrTruthy sig.privateKeyPath &&
      !fs.privateKeyExists (sig.privateKeyPath.getD "") then
    true
  else sig.autoGenerate.getD true

/-! ## Package index (`PackageManager.generatePackageManifest`) -/

/-- TS interface `PackageInfo`. -/
structure PackageInfo where
  platform : String
  version : String
  timestamp : String
  bundleSize : Nat
  assetCount : Nat
  zipPath : String
  manifest : Option JsonVal := none

/-- Models `pkg.manifest?.bundleHash || "unknown"`. -/
def checksumOf (m : Option JsonVal) : JsonVal :=
  match m with
  | some (.obj fields) =>
      match fields.lookup "bundleHash" with
      | some v => if jsFalsyField (some v) then .str "unknown" else v
      | none => .str "unknown"
  | _ => .str "unknown"

/-- Models `(bytes / 1024 / 1024).toFixed(2) + " MB"`, computed in fixed point
(the JS float rounding of `toFixed` agrees on the sizes in scope; no
theorem depends on this field). -/
def toFixed2MB (bytes : Nat) : String :=
  let v := (bytes * 100 + 524288) / 1048576
  toString (v / 100) ++ "." ++
    (if v % 100 < 10 then "0" else "") ++ toString (v % 100) ++ " MB"

/-- One entry of `packages-manifest.json`'s `packages` array. -/
structure PackageEntry where
  platform : String
  version : String
  timestamp : String
  filename : String
  sizeDisplay : String
  bundleSize : Nat
  assetCount : Nat
  checksum : JsonVal

/-- The `summary` block of `packages-manifest.json`. -/
structure PackageSummary where
  platforms : List String
  totalSize : Nat
  totalAssets : Nat

/-- The `packages-manifest.json` document. -/
structure PackagesManifest where
  generated : String
  packages : List PackageEntry
  totalPackages : Nat
  summary : PackageSummary

/-- Embeds `PackageManager.generatePackageManifest`: the document written to
`packages-manifest.json` (`generatedAt` stands for
`new Date().toISOString()`; the `reduce((sum, p) => sum + p.x, 0)` totals
are `foldl`). -/
def generatePackageManifest (packages : List PackageInfo)
    (generatedAt : String) : PackagesManifest :=
  { generated := generatedAt,
    packages := packages.map (fun pkg =>
      { platform := pkg.platform,
        version := pkg.version,
        timestamp := pkg.timestamp,
        filename := basenameOf pkg.zipPath,
        sizeDisplay := toFixed2MB pkg.bundleSize,
        bundleSize := pkg.bundleSize,
        assetCount := pkg.assetCount,
        checksum := checksumOf pkg.manifest }),
    totalPackages := packages.length,
    summary :=
      { platforms := packages.map (fun p => p.platform),
        totalSize := packages.foldl (fun sum p => sum + p.bundleSize) 0,
        totalAssets := packages.foldl (fun sum p => sum + p.assetCount) 0 } }

/-! ## Order instances and concrete fixtures -/

instance : IsTotal String strLe :=
  ⟨by
    have key : ∀ as bs, strLeB as bs = true ∨ strLeB bs as = true := by
      intro as
      induction as with
      | nil => intro bs; left; rfl
      | cons x xs ih =>
        intro bs
        cases bs with
        | nil => right; rfl
        | cons y ys =>
          by_cases hxy : x = y
          · subst hxy
            simp only [strLeB, if_pos rfl]
            exact ih ys
          · simp only [strLeB, if_neg hxy, if_neg (Ne.symm hxy), charLeB,
              decide_eq_true_eq]
            omega
    intro a b
    exact key a.data b.data⟩

instance : IsTrans String strLe :=
  ⟨by
    have ceq : ∀ u v : Char, u.toNat = v.toNat → u = v := fun u v h => by
      rw [← Char.ofNat_toNat u, ← Char.ofNat_toNat v, h]
    have key : ∀ as bs cs, strLeB as bs = true → strLeB bs cs = true →
        strLeB as cs = true := by
      intro as
      induction as with
      | nil => intro bs cs _ _; rfl
      | cons x xs ih =>
        intro bs cs h1 h2
        cases bs with
        | nil => simp [strLeB] at h1
        | cons y ys =>
          cases cs with
          | nil => simp [strLeB] at h2
          | cons z zs =>
            by_cases hxy : x = y <;> by_cases hyz : y = z
            · subst hxy; subst hyz
              simp only [strLeB, if_pos rfl] at h1 h2 ⊢
              exact ih ys zs h1 h2
            · subst hxy
              simp only [strLeB, if_pos rfl, if_neg hyz] at h2 ⊢
              exact h2
            · subst hyz
              simp only [strLeB, if_neg hxy] at h1 ⊢
              exact h1
            · by_cases hxz : x = z
              · subst hxz
                simp only [strLeB, if_neg hxy, if_neg hyz, charLeB,
                  decide_eq_true_eq] at h1 h2
                exact absurd (ceq x y (by omega)) hxy
              · simp only [strLeB, if_neg hxy, if_neg hyz, if_neg hxz, charLeB,
                  decide_eq_true_eq] at h1 h2 ⊢
                omega
    intro a b c hab hbc
    exact key a.data b.data c.data hab hbc⟩

instance : IsAntisymm String strLe :=
  ⟨by
    have ceq : ∀ u v : Char, u.toNat = v.toNat → u = v := fun u v h => by
      rw [← Char.ofNat_toNat u, ← Char.ofNat_toNat v, h]
    have key : ∀ as bs, strLeB as bs = true → strLeB bs as = true → as = bs := by
      intro as
      induction as with
      | nil =>
        intro bs _ h2
        cases bs with
        | nil => rfl
        | cons y ys => simp [strLeB] at h2
      | cons x xs ih =>
        intro bs h1 h2
        cases bs with
        | nil => simp [strLeB] at h1
        | cons y ys =>
          by_cases hxy : x = y
          · subst hxy
            simp only [strLeB, if_pos rfl] at h1 h2
            rw [ih ys h1 h2]
          · simp only [strLeB, if_neg hxy, if_neg (Ne.symm hxy), charLeB,
              decide_eq_true_eq] at h1 h2
            exact absurd (ceq x y (by omega)) hxy
    intro a b hab hba
    cases a; cases b
    exact congrArg String.mk (key _ _ hab hba)⟩

/-- A concrete `CryptoModel` for evaluating the embeddings on closed inputs:
signatures are the byte string `[7]`, public keys are `"PUB" ++ sk`, and
verification errors out (models a thrown exception) unless the key looks
like a derived public key. -/
def testCrypto : CryptoModel where
  sign := fun _ _ _ => [7]
  derivePublic := fun sk => "PUB" ++ sk
  verify := fun _ pk _ sig =>
    if (['P', 'U', 'B']).isPrefixOf pk.data then .ok (sig == [7])
    else .error "key parse error"
  sign_verify := by
    intro hashAlg sk data
    have hdata : ("PUB" ++ sk).data = 'P' :: 'U' :: 'B' :: sk.data := by
      cases sk with
      | mk l => rfl
    simp [hdata, List.isPrefixOf]
  sign_ne := by intro _ _ _ h; cases h
  sign_bytes := by
    intro _ _ _ b hb
    simp only [List.mem_singleton] at hb
    omega

/-- Fallback element for indexing into result lists. -/
def dummyBuildResult : BuildResult :=
  { success := false, platform := .ios, bundlePath := "", zipPath := "",
    size := 0 }

/-- A bundler asset directory with a single PNG in the `drawable-mdpi`
bucket. -/
def metroFsEx : MetroFs :=
  { dirs := fun d =>
      if d = "drawable-mdpi" then
        some [{ name := "icon.png", isFile := true, mtimeMs := 1700000000000 }]
      else none }

/-- An empty bundler asset directory. -/
def metroFsEmpty : MetroFs := { dirs := fun _ => none }

/-- A glob environment with one matched file, used to evaluate `copyAssets`
on a closed input. -/
def globEnvEx : GlobEnv :=
  { glob := fun pat =>
      if pat = "assets/**/*" then
        [{ relPath := "assets/logo.png", isFile := true,
           mtimeMs := 1700000000001, content := [1, 2, 3] }]
      else [] }

/-! ## Canonicalization stability: helper lemmas -/

/-- Looking a key up in an association list is invariant under permutation
when the keys are duplicate-free. -/
theorem lookupPermEq {β : Type} (k : String) :
    ∀ (l l' : List (String × β)), l.Perm l' → (l.map Prod.fst).Nodup →
      l.lookup k = l'.lookup k := by
  intro l l' h
  induction h with
  | nil => intro _; rfl
  | cons x _ ih =>
      intro hn
      simp only [List.map_cons, List.nodup_cons] at hn
      cases x with
      | mk a bv =>
        simp only [List.lookup]
        cases hka : k == a with
        | true => rfl
        | false => exact ih hn.2
  | swap x y t =>
      intro hn
      cases x with
      | mk a av =>
        cases y with
        | mk b bv =>
          simp only [List.map_cons, List.nodup_cons, List.mem_cons] at hn
          have hab : ¬(b = a) := fun hcontra => hn.1 (Or.inl hcontra)
          simp only [List.lookup]
          cases hkb : k == b with
          | true =>
              have hkb' : k = b := by simpa using hkb
              have : (k == a) = false := by
                simp only [beq_eq_false_iff_ne, ne_eq]
                intro hka
                exact hab (hkb' ▸ hka ▸ rfl)
              rw [this]
          | false => rfl
  | trans h1 _ ih1 ih2 =>
      intro hn
      have hn2 := ((h1.map Prod.fst).nodup_iff).mp hn
      exact (ih1 hn).trans (ih2 hn2)

/-- Lemma: `strP` is a map over the field list. -/
theorem strP_eq_map (props : List String) :
    ∀ l, strP props l = l.map (fun p => (p.1, strJ props p.2)) := by
  intro l
  induction l with
  | nil => rfl
  | cons p rest ih => simp only [strP, List.map_cons, ih]

/-- Lemma: `selectProps` only sees the association list through `lookup`. -/
theorem selectProps_congr (props : List String)
    (m m' : List (String × String)) (h : ∀ k, m.lookup k = m'.lookup k) :
    selectProps props m = selectProps props m' := by
  unfold selectProps
  induction props with
  | nil => rfl
  | cons k rest ih => simp only [List.filterMap_cons, h k, ih]

/-- Pointwise-related field lists have pointwise-equal keys. -/
theorem keys_eq_of_jequivPairs :
    ∀ l lmid, JEquivPairs l lmid → l.map Prod.fst = lmid.map Prod.fst := by
  intro l
  induction l with
  | nil =>
      intro lmid h
      cases lmid with
      | nil => rfl
      | cons q qs => exact absurd h (by simp [JEquivPairs])
  | cons p ps ih =>
      intro lmid h
      cases lmid with
      | nil => exact absurd h (by simp [JEquivPairs])
      | cons q qs =>
          have h' : p.1 = q.1 ∧ JEquiv p.2 q.2 ∧ JEquivPairs ps qs := h
          simp only [List.map_cons, h'.1, ih qs h'.2.2]

/-- Filtering by a key-only predicate preserves the pointwise relation. -/
theorem jequivPairs_filter (f : String → Bool) :
    ∀ l lmid, JEquivPairs l lmid →
      JEquivPairs (l.filter (fun p => f p.1)) (lmid.filter (fun p => f p.1)) := by
  intro l
  induction l with
  | nil =>
      intro lmid h
      cases lmid with
      | nil => exact h
      | cons q qs => exact absurd h (by simp [JEquivPairs])
  | cons p ps ih =>
      intro lmid h
      cases lmid with
      | nil => exact absurd h (by simp [JEquivPairs])
      | cons q qs =>
          have h' : p.1 = q.1 ∧ JEquiv p.2 q.2 ∧ JEquivPairs ps qs := h
          by_cases hf : f p.1 = true
          · have hqf : f q.1 = true := h'.1 ▸ hf
            simp only [List.filter_cons, hf, hqf, if_pos]
            exact ⟨h'.1, h'.2.1, ih qs h'.2.2⟩
          · have hpf : f p.1 = false := by
              cases hv : f p.1 with
              | true => exact absurd hv hf
              | false => rfl
            have hqf : f q.1 = false := h'.1 ▸ hpf
            simp only [List.filter_cons, hpf, hqf]
            exact ih qs h'.2.2

/-- Lemma: `strP` maps pointwise-related field lists to equal serialized pairs,
given the congruence hypothesis for the values. -/
theorem strP_eq_of_jequivPairs (props : List String) :
    ∀ l lmid, JEquivPairs l lmid →
      (∀ p, p ∈ l → ∀ w, JEquiv p.2 w → strJ props p.2 = strJ props w) →
      strP props l = strP props lmid := by
  intro l
  induction l with
  | nil =>
      intro lmid h _
      cases lmid with
      | nil => rfl
      | cons q qs => exact absurd h (by simp [JEquivPairs])
  | cons p ps ih =>
      intro lmid h hIH
      cases lmid with
      | nil => exact absurd h (by simp [JEquivPairs])
      | cons q qs =>
          have h' : p.1 = q.1 ∧ JEquiv p.2 q.2 ∧ JEquivPairs ps qs := h
          simp only [strP]
          rw [h'.1, hIH p (List.mem_cons_self p ps) q.2 h'.2.1,
            ih qs h'.2.2 (fun r hr w hw => hIH r (List.mem_cons_of_mem p hr) w hw)]

/-- Lemma: `strL` maps elementwise-related arrays to equal serialized lists. -/
theorem strL_eq_of_jequivList (props : List String) :
    ∀ xs ys, JEquivList xs ys →
      (∀ x, x ∈ xs → ∀ w, JEquiv x w → strJ props x = strJ props w) →
      strL props xs = strL props ys := by
  intro xs
  induction xs with
  | nil =>
      intro ys h _
      cases ys with
      | nil => rfl
      | cons y ys' => exact absurd h (by simp [JEquivList])
  | cons x xs' ih =>
      intro ys h hIH
      cases ys with
      | nil => exact absurd h (by simp [JEquivList])
      | cons y ys' =>
          have h' : JEquiv x y ∧ JEquivList xs' ys' := h
          simp only [strL]
          rw [hIH x (List.mem_cons_self x xs') y h'.1,
            ih ys' h'.2 (fun z hz w hw => hIH z (List.mem_cons_of_mem x hz) w hw)]

/-- Sorting by the JavaScript key order is a function of the multiset of
keys: permuted key lists sort to the same list. -/
theorem sortStrings_perm_eq (l l' : List String) (h : l.Perm l') :
    sortStrings l = sortStrings l' :=
  List.eq_of_perm_of_sorted
    (((List.perm_insertionSort strLe l).trans h).trans
      (List.perm_insertionSort strLe l').symm)
    (List.sorted_insertionSort strLe l) (List.sorted_insertionSort strLe l')

/-- Lemma: `JSON.stringify` with a fixed replacer list is invariant under `JEquiv`:
key insertion order never reaches the output. -/
theorem strJ_congr :
    ∀ v, ∀ (props : List String) (w : JsonVal), JEquiv v w →
      strJ props v = strJ props w := by
  intro v
  induction v using JsonVal.recMem with
  | hnul =>
      intro props w h
      cases w with
      | nul => rfl
      | bool b => exact absurd h (by simp [JEquiv])
      | num n => exact absurd h (by simp [JEquiv])
      | str s => exact absurd h (by simp [JEquiv])
      | arr xs => exact absurd h (by simp [JEquiv])
      | obj l => exact absurd h (by simp [JEquiv])
  | hbool b =>
      intro props w h
      cases w with
      | bool b' => have hb : b = b' := h; rw [hb]
      | nul => exact absurd h (by simp [JEquiv])
      | num n => exact absurd h (by simp [JEquiv])
      | str s => exact absurd h (by simp [JEquiv])
      | arr xs => exact absurd h (by simp [JEquiv])
      | obj l => exact absurd h (by simp [JEquiv])
  | hnum n =>
      intro props w h
      cases w with
      | num n' => have hb : n = n' := h; rw [hb]
      | nul => exact absurd h (by simp [JEquiv])
      | bool b => exact absurd h (by simp [JEquiv])
      | str s => exact absurd h (by simp [JEquiv])
      | arr xs => exact absurd h (by simp [JEquiv])
      | obj l => exact absurd h (by simp [JEquiv])
  | hstr s =>
      intro props w h
      cases w with
      | str s' => have hb : s = s' := h; rw [hb]
      | nul => exact absurd h (by simp [JEquiv])
      | bool b => exact absurd h (by simp [JEquiv])
      | num n => exact absurd h (by simp [JEquiv])
      | arr xs => exact absurd h (by simp [JEquiv])
      | obj l => exact absurd h (by simp [JEquiv])
  | harr xs IH =>
      intro props w h
      cases w with
      | arr ys =>
          have hl : JEquivList xs ys := h
          simp only [strJ]
          rw [strL_eq_of_jequivList props xs ys hl (fun x hx w' hw' => IH x hx props w' hw')]
      | nul => exact absurd h (by simp [JEquiv])
      | bool b => exact absurd h (by simp [JEquiv])
      | num n => exact absurd h (by simp [JEquiv])
      | str s => exact absurd h (by simp [JEquiv])
      | obj l => exact absurd h (by simp [JEquiv])
  | hobj l IH =>
      intro props w h
      cases w with
      | obj l2 =>
          have hh : (l.map Prod.fst).Nodup ∧ (l2.map Prod.fst).Nodup ∧
              ∃ lmid, JEquivPairs l lmid ∧ lmid.Perm l2 := h
          obtain ⟨hn1, hn2, lmid, hpairs, hperm⟩ := hh
          simp only [strJ]
          have hstep1 : strP props l = strP props lmid :=
            strP_eq_of_jequivPairs props l lmid hpairs
              (fun p hp w' hw' => IH p hp props w' hw')
          have hkeysmid : lmid.map Prod.fst = l.map Prod.fst :=
            (keys_eq_of_jequivPairs l lmid hpairs).symm
          have hnmid : (lmid.map Prod.fst).Nodup := hkeysmid ▸ hn1
          have hpermP : (strP props lmid).Perm (strP props l2) := by
            rw [strP_eq_map, strP_eq_map]
            exact hperm.map _
          have hkeysP : ((strP props lmid).map Prod.fst).Nodup := by
            rw [strP_eq_map]
            simpa [Function.comp] using hnmid
          have hlk : ∀ k, (strP props lmid).lookup k = (strP props l2).lookup k :=
            fun k => lookupPermEq k _ _ hpermP hkeysP
          rw [hstep1, selectProps_congr props _ _ hlk]
      | nul => exact absurd h (by simp [JEquiv])
      | bool b => exact absurd h (by simp [JEquiv])
      | num n => exact absurd h (by simp [JEquiv])
      | str s => exact absurd h (by simp [JEquiv])
      | arr xs => exact absurd h (by simp [JEquiv])

/-- Canonicalization stability: equivalent manifests (same values, any key
insertion order) canonicalize to the same byte string. -/
theorem canonicalStable (l1 l2 : List (String × JsonVal))
    (h : JEquiv (.obj l1) (.obj l2)) :
    canonicalSigningString l1 = canonicalSigningString l2 := by
  have hh : (l1.map Prod.fst).Nodup ∧ (l2.map Prod.fst).Nodup ∧
      ∃ lmid, JEquivPairs l1 lmid ∧ lmid.Perm l2 := h
  obtain ⟨hn1, hn2, lmid, hpairs, hperm⟩ := hh
  have keepF : ∀ (p : String × JsonVal),
      (!(isSignatureField p.1)) = (fun k => !(isSignatureField k)) p.1 :=
    fun _ => rfl
  have hpairsF : JEquivPairs (stripSignatureFields l1)
      (lmid.filter (fun p => !(isSignatureField p.1))) :=
    jequivPairs_filter (fun k => !(isSignatureField k)) l1 lmid hpairs
  have hpermF : (lmid.filter (fun p => !(isSignatureField p.1))).Perm
      (stripSignatureFields l2) := hperm.filter _
  have hkeys1 : (stripSignatureFields l1).map Prod.fst =
      (lmid.filter (fun p => !(isSignatureField p.1))).map Prod.fst :=
    keys_eq_of_jequivPairs _ _ hpairsF
  have hkeysPerm : ((stripSignatureFields l1).map Prod.fst).Perm
      ((stripSignatureFields l2).map Prod.fst) := by
    rw [hkeys1]
    exact hpermF.map _
  have hprops : sortStrings ((stripSignatureFields l1).map Prod.fst) =
      sortStrings ((stripSignatureFields l2).map Prod.fst) :=
    sortStrings_perm_eq _ _ hkeysPerm
  have hsub1 : ((stripSignatureFields l1).map Prod.fst).Sublist
      (l1.map Prod.fst) := (List.filter_sublist l1).map Prod.fst
  have hsub2 : ((stripSignatureFields l2).map Prod.fst).Sublist
      (l2.map Prod.fst) := (List.filter_sublist l2).map Prod.fst
  have hequivF : JEquiv (.obj (stripSignatureFields l1))
      (.obj (stripSignatureFields l2)) :=
    ⟨hn1.sublist hsub1, hn2.sublist hsub2, _, hpairsF, hpermF⟩
  unfold canonicalSigningString
  rw [hprops]
  exact strJ_congr (.obj (stripSignatureFields l1)) _ _ hequivF

/-- C1 (as stated, refuted at a concrete input): the canonicalization used
by `signManifest`/`verifyManifest` does NOT serialize nested objects with
their keys sorted — the array replacer `Object.keys(manifest).sort()`
filters every nested object down to the top-level key names, so the
`metadata` block serializes as an empty object, unlike the spec-described
sorted serialization of the same manifest. -/
theorem c1_counterexample :
    canonicalSigningString
        [("version", .str "1.0.0"),
         ("metadata", .obj [("builder", .str "nitro-hotupdate-cli")])] =
      "\x7b\"metadata\":\x7b\x7d,\"version\":\"1.0.0\"\x7d" ∧
    specCanonicalString
        [("version", .str "1.0.0"),
         ("metadata", .obj [("builder", .str "nitro-hotupdate-cli")])] =
      "\x7b\"metadata\":\x7b\"builder\":\"nitro-hotupdate-cli\"\x7d,\"version\":\"1.0.0\"\x7d" ∧
    canonicalSigningString
        [("version", .str "1.0.0"),
         ("metadata", .obj [("builder", .str "nitro-hotupdate-cli")])] ≠
      specCanonicalString
        [("version", .str "1.0.0"),
         ("metadata", .obj [("builder", .str "nitro-hotupdate-cli")])] := by
  refine ⟨by decide, by decide, by decide⟩

/-- C1 (amended): two manifest objects with the same field values at every
nesting level and any key insertion order canonicalize (strip the three
signature fields, then `JSON.stringify` with the sorted top-level key list
as array replacer) to identical byte sequences, and therefore `signData`
produces identical signatures for them under the same key; however the
replacer filters nested objects to the top-level key names instead of
sorting their keys. -/
theorem c1_canonicalization_stability :
    ∀ (l1 l2 : List (String × JsonVal)), JEquiv (.obj l1) (.obj l2) →
      ∀ (C : CryptoModel) (alg : SigAlgorithm) (sk : String) (now : Nat),
        canonicalSigningString l1 = canonicalSigningString l2 ∧
        signData C alg (canonicalSigningString l1) sk now =
          signData C alg (canonicalSigningString l2) sk now := by
  intro l1 l2 h C alg sk now
  have hc := canonicalStable l1 l2 h
  exact ⟨hc, by rw [hc]⟩

/-- Witness for C1: two concrete manifests differing in insertion order at
both nesting levels canonicalize identically and sign identically. -/
theorem c1_witness :
    canonicalSigningString
        [("b", .num 1), ("a", .obj [("y", .num 2), ("x", .num 3)])] =
      canonicalSigningString
        [("a", .obj [("x", .num 3), ("y", .num 2)]), ("b", .num 1)] ∧
    signData testCrypto .rsaSHA256
        (canonicalSigningString
          [("b", .num 1), ("a", .obj [("y", .num 2), ("x", .num 3)])]) "key" 0 =
      signData testCrypto .rsaSHA256
        (canonicalSigningString
          [("a", .obj [("x", .num 3), ("y", .num 2)]), ("b", .num 1)]) "key" 0 :=
  c1_canonicalization_stability
    [("b", .num 1), ("a", .obj [("y", .num 2), ("x", .num 3)])]
    [("a", .obj [("x", .num 3), ("y", .num 2)]), ("b", .num 1)]
    ⟨by decide, by decide,
     [("b", .num 1), ("a", .obj [("x", .num 3), ("y", .num 2)])],
     ⟨rfl, rfl, rfl,
      ⟨by decide, by decide,
       [("y", .num 2), ("x", .num 3)],
       ⟨rfl, rfl, rfl, rfl, trivial⟩,
       List.Perm.swap _ _ _⟩,
      trivial⟩,
     List.Perm.swap _ _ _⟩
    testCrypto .rsaSHA256 "key" 0

/-! ## Base64 and format lemmas for the sign/verify round trip -/

/-- Looking up the alphabet index of an alphabet character is the identity
below 64. -/
theorem sextet_rt : ∀ n, n < 64 → charSextetVal (sextetChar n) = n := by decide

/-- Alphabet characters are never the padding character. -/
theorem sextetChar_ne_eq : ∀ n, n < 64 → sextetChar n ≠ '=' := by decide

/-- No base64 character is the `:` separator. -/
theorem sextetChar_ne_colon (n : Nat) : sextetChar n ≠ ':' := by
  by_cases h : n < 64
  · exact (by decide : ∀ m, m < 64 → sextetChar m ≠ ':') n h
  · unfold sextetChar
    rw [List.getD_eq_default]
    · decide
    · simp only [base64Alphabet, List.length]
      omega

/-- Decoding inverts encoding on byte sequences. -/
theorem b64_roundtrip :
    ∀ bs : List Nat, (∀ b ∈ bs, b < 256) →
      b64decodeChars (b64encodeBytes bs) = bs
  | [] => fun _ => rfl
  | [a] => fun h => by
      have ha : a < 256 := h a (by simp)
      simp only [b64encodeBytes, b64decodeChars, ite_true]
      rw [sextet_rt (a / 4) (by omega), sextet_rt (a % 4 * 16) (by omega)]
      simp only [List.cons.injEq, and_true]
      omega
  | [a, b] => fun h => by
      have ha : a < 256 := h a (by simp)
      have hb : b < 256 := h b (by simp)
      simp only [b64encodeBytes, b64decodeChars, ite_true]
      rw [sextet_rt (a / 4) (by omega), sextet_rt (a % 4 * 16 + b / 16) (by omega),
        sextet_rt (b % 16 * 4) (by omega),
        if_neg (sextetChar_ne_eq (b % 16 * 4) (by omega))]
      simp only [List.cons.injEq, and_true]
      exact ⟨by omega, by omega⟩
  | a :: b :: c :: rest => fun h => by
      have ha : a < 256 := h a (by simp)
      have hb : b < 256 := h b (by simp)
      have hc : c < 256 := h c (by simp)
      have hrest : ∀ x ∈ rest, x < 256 := fun x hx => h x (by simp [hx])
      simp only [b64encodeBytes, b64decodeChars]
      rw [if_neg (sextetChar_ne_eq (b % 16 * 4 + c / 64) (by omega)),
        if_neg (sextetChar_ne_eq (c % 64) (by omega)),
        sextet_rt (a / 4) (by omega), sextet_rt (a % 4 * 16 + b / 16) (by omega),
        sextet_rt (b % 16 * 4 + c / 64) (by omega), sextet_rt (c % 64) (by omega),
        b64_roundtrip rest hrest]
      simp only [List.cons.injEq, and_true]
      exact ⟨by omega, by omega, by omega⟩

/-- Encoding a non-empty byte sequence yields a non-empty character list. -/
theorem b64encode_ne_nil : ∀ bs : List Nat, bs ≠ [] → b64encodeBytes bs ≠ [] := by
  intro bs hne
  match bs with
  | [] => exact absurd rfl hne
  | [a] => simp [b64encodeBytes]
  | [a, b] => simp [b64encodeBytes]
  | a :: b :: c :: rest => simp [b64encodeBytes]

/-- Encoded characters never contain the `:` separator. -/
theorem b64encode_no_colon :
    ∀ bs : List Nat, ∀ ch ∈ b64encodeBytes bs, ch ≠ ':'
  | [] => by simp [b64encodeBytes]
  | [a] => by
      simp only [b64encodeBytes, List.mem_cons, List.not_mem_nil, or_false]
      intro ch hch
      rcases hch with h | h | h | h <;> subst h
      · exact sextetChar_ne_colon _
      · exact sextetChar_ne_colon _
      · decide
      · decide
  | [a, b] => by
      simp only [b64encodeBytes, List.mem_cons, List.not_mem_nil, or_false]
      intro ch hch
      rcases hch with h | h | h | h <;> subst h
      · exact sextetChar_ne_colon _
      · exact sextetChar_ne_colon _
      · exact sextetChar_ne_colon _
      · decide
  | a :: b :: c :: rest => by
      simp only [b64encodeBytes, List.mem_cons]
      intro ch hch
      rcases hch with h | h | h | h | h
      · subst h; exact sextetChar_ne_colon _
      · subst h; exact sextetChar_ne_colon _
      · subst h; exact sextetChar_ne_colon _
      · subst h; exact sextetChar_ne_colon _
      · exact b64encode_no_colon rest ch h

/-- Splitting a separator-free list produces one field. -/
theorem splitOnChar_no_sep (sep : Char) :
    ∀ cs, (∀ c ∈ cs, c ≠ sep) → splitOnChar sep cs = [cs] := by
  intro cs
  induction cs with
  | nil => intro _; rfl
  | cons c rest ih =>
      intro h
      have hc : c ≠ sep := h c (by simp)
      simp only [splitOnChar]
      rw [if_neg hc, ih (fun x hx => h x (by simp [hx]))]

/-- Splitting at the first separator yields the separator-free head field. -/
theorem splitOnChar_head (sep : Char) :
    ∀ (a b : List Char), (∀ c ∈ a, c ≠ sep) →
      splitOnChar sep (a ++ sep :: b) = a :: splitOnChar sep b := by
  intro a
  induction a with
  | nil =>
      intro b _
      simp only [List.nil_append, splitOnChar, ite_true]
  | cons c rest ih =>
      intro b h
      have hc : c ≠ sep := h c (by simp)
      simp only [List.cons_append, splitOnChar, List.append_eq]
      rw [if_neg hc, ih b (fun x hx => h x (by simp [hx]))]

/-- Lemma: `split(":", 2)` on an `ALGORITHM:SIGNATURE` string recovers the two
parts when neither contains a colon. -/
theorem jsSplit2_format (alg sig : String)
    (ha : ∀ c ∈ alg.data, c ≠ ':') (hs : ∀ c ∈ sig.data, c ≠ ':') :
    jsSplit2 ':' (alg ++ ":" ++ sig) = [alg, sig] := by
  unfold jsSplit2
  have hd : (alg ++ ":" ++ sig).data = alg.data ++ ':' :: sig.data := by
    cases alg with
    | mk A =>
      cases sig with
      | mk S => simp [String.data]
  rw [hd, splitOnChar_head ':' alg.data sig.data ha,
    splitOnChar_no_sep ':' sig.data hs]
  rfl

/-- The hash-algorithm name derived from the two supported identifiers. -/
theorem hashAlgOf_supported :
    hashAlgOf "RSA-SHA256" = some "SHA256" ∧
      hashAlgOf "ECDSA-SHA256" = some "SHA256" := by
  refine ⟨by decide, by decide⟩

/-- Core of the round trip for a fixed, well-behaved algorithm name. -/
theorem roundtripCore (C : CryptoModel) (algName data sk : String)
    (now2 : Nat) (hnc : ∀ c ∈ algName.data, c ≠ ':') (hne : algName ≠ "")
    (hha : hashAlgOf algName = some "SHA256") :
    (verifySignature C data (algName ++ ":" ++ b64encode (C.sign "SHA256" sk data))
      (C.derivePublic sk) now2).isValid = true := by
  have hsplit := jsSplit2_format algName (b64encode (C.sign "SHA256" sk data))
    hnc (fun c hc => b64encode_no_colon _ c hc)
  have hbne : b64encode (C.sign "SHA256" sk data) ≠ "" := by
    intro hcontra
    have := congrArg String.data hcontra
    simp only [b64encode] at this
    exact b64encode_ne_nil _ (C.sign_ne "SHA256" sk data) this
  have hdec : b64decode (b64encode (C.sign "SHA256" sk data)) =
      C.sign "SHA256" sk data :=
    b64_roundtrip _ (C.sign_bytes "SHA256" sk data)
  have hver : C.verify "SHA256" (C.derivePublic sk) data
      (b64decode (b64encode (C.sign "SHA256" sk data))) = .ok true := by
    rw [hdec]
    exact C.sign_verify "SHA256" sk data
  unfold verifySignature
  rw [hsplit]
  simp only [List.getD_cons_zero, List.getD_cons_succ]
  rw [if_neg (by simp [hne, hbne]), hha]
  simp only [hver]

/-- C2: for every crypto model satisfying the library's round-trip
guarantee, every supported algorithm, data string and key, verifying the
signature string produced by `signData` against the re-derived public key
returns `isValid = true`. -/
theorem c2_sign_verify_roundtrip :
    ∀ (C : CryptoModel) (alg : SigAlgorithm) (data sk : String)
      (now now2 : Nat) (r : SignatureResult),
      signData C alg data sk now = .ok r →
      (verifySignature C data r.signature (C.derivePublic sk) now2).isValid = true := by
  intro C alg data sk now now2 r h
  cases alg with
  | rsaSHA256 =>
      rw [show signData C .rsaSHA256 data sk now =
        .ok { signature := "RSA-SHA256" ++ ":" ++ b64encode (C.sign "SHA256" sk data),
              algorithm := "RSA-SHA256",
              publicKey := C.derivePublic sk,
              timestamp := now } from rfl] at h
      cases h
      exact roundtripCore C "RSA-SHA256" data sk now2 (by decide) (by decide)
        hashAlgOf_supported.1
  | ecdsaSHA256 =>
      rw [show signData C .ecdsaSHA256 data sk now =
        .ok { signature := "ECDSA-SHA256" ++ ":" ++ b64encode (C.sign "SHA256" sk data),
              algorithm := "ECDSA-SHA256",
              publicKey := C.derivePublic sk,
              timestamp := now } from rfl] at h
      cases h
      exact roundtripCore C "ECDSA-SHA256" data sk now2 (by decide) (by decide)
        hashAlgOf_supported.2

/-- Witness for C2 at a concrete model, data and key. -/
theorem c2_witness :
    signData testCrypto .rsaSHA256 "payload" "key" 0 =
      .ok { signature := "RSA-SHA256" ++ ":" ++ b64encode [7],
            algorithm := "RSA-SHA256",
            publicKey := "PUBkey",
            timestamp := 0 } ∧
    (verifySignature testCrypto "payload"
      ("RSA-SHA256" ++ ":" ++ b64encode [7])
      (testCrypto.derivePublic "key") 1).isValid = true := by
  refine ⟨rfl, ?_⟩
  exact c2_sign_verify_roundtrip testCrypto .rsaSHA256 "payload" "key" 0 1
    { signature := "RSA-SHA256" ++ ":" ++ b64encode [7],
      algorithm := "RSA-SHA256",
      publicKey := "PUBkey",
      timestamp := 0 } rfl

/-- C3: verification always yields a structured `VerificationResult` value:
a signature string without the `:` separator produces the invalid-format
result (not an exception); an exception inside the cryptographic
verification is caught and reported as `isValid = false` with a descriptive
message; and one level up, `verifyManifest` turns a missing/falsy signature
field into a structured error result as well. -/
theorem c3_verification_is_value :
    ∀ (C : CryptoModel) (data s pk : String) (now : Nat)
      (l : List (String × JsonVal)) (pkOpt : Option String),
      ((∀ c ∈ s.data, c ≠ ':') →
        verifySignature C data s pk now =
          { isValid := false, error := some invalidFormatMsg }) ∧
      (∀ (a b e : String),
        s = a ++ ":" ++ b → a ≠ "" → b ≠ "" →
        (∀ c ∈ a.data, c ≠ ':') → (∀ c ∈ b.data, c ≠ ':') →
        ∀ ha, hashAlgOf a = some ha →
        C.verify ha pk data (b64decode b) = .error e →
        verifySignature C data s pk now =
          { isValid := false, error := some ("Verification failed: " ++ e) }) ∧
      (jsFalsyField (l.lookup "signature") = true →
        verifyManifest C l pkOpt now =
          { isValid := false, error := some "No signature found in manifest" }) := by
  intro C data s pk now l pkOpt
  refine ⟨?_, ?_, ?_⟩
  · intro hnc
    have hsplit : jsSplit2 ':' s = [s] := by
      unfold jsSplit2
      rw [splitOnChar_no_sep ':' s.data hnc]
      rfl
    unfold verifySignature
    rw [hsplit]
    simp only [List.getD_cons_zero, List.getD_cons_succ, List.getD_nil]
    simp only [or_true, ite_true]
  · intro a b e hs hane hbne hanc hbnc ha hha hverr
    subst hs
    have hsplit := jsSplit2_format a b hanc hbnc
    unfold verifySignature
    rw [hsplit]
    simp only [List.getD_cons_zero, List.getD_cons_succ]
    rw [if_neg (by simp [hane, hbne]), hha]
    simp only [hverr]
  · intro hfalsy
    unfold verifyManifest
    rw [if_pos hfalsy]

/-- Witness for C3: the three error shapes at concrete inputs. -/
theorem c3_witness :
    verifySignature testCrypto "d" "abc" "pk" 0 =
      { isValid := false, error := some invalidFormatMsg } ∧
    verifySignature testCrypto "d" ("RSA-SHA256" ++ ":" ++ b64encode [7]) "nope" 0 =
      { isValid := false,
        error := some ("Verification failed: " ++ "key parse error") } ∧
    verifyManifest testCrypto [] none 0 =
      { isValid := false, error := some "No signature found in manifest" } :=
  ⟨(c3_verification_is_value testCrypto "d" "abc" "pk" 0 [] none).1 (by decide),
   (c3_verification_is_value testCrypto "d" ("RSA-SHA256" ++ ":" ++ b64encode [7])
      "nope" 0 [] none).2.1 "RSA-SHA256" (b64encode [7]) "key parse error" rfl
      (by decide) (by decide) (by decide) (by decide) "SHA256" (by decide)
      rfl,
   (c3_verification_is_value testCrypto "d" "abc" "pk" 0 [] none).2.2 (by decide)⟩

/-- Indexing into a mapped list below its length. -/
theorem getD_map_lt {α β : Type} (f : α → β) (d : β) (d' : α) :
    ∀ (L : List α) (i : Nat), i < L.length →
      (L.map f).getD i d = f (L.getD i d') := by
  intro L
  induction L with
  | nil => intro i h; simp at h
  | cons x xs ih =>
      intro i h
      cases i with
      | zero => rfl
      | succ j =>
          simp only [List.map_cons, List.getD_cons_succ]
          exact ih j (by simpa using h)

/-- C4: `buildAllPlatforms` returns exactly one result per requested
platform, in order; each result depends only on that platform's own
pipeline outcome (failure isolation), a failing platform's result carries
`success = false` and its captured error message, a successful platform's
result has `success = true` regardless of the other platforms, and the
build commands exit with status 1 exactly when some result failed. -/
theorem c4_failure_isolation :
    ∀ (cfg : BuildConfig) (env : Platform → PlatformOutcome),
      cfg.platforms ≠ [] →
      (buildAllPlatforms cfg env).length = cfg.platforms.length ∧
      (∀ i, i < cfg.platforms.length →
        (buildAllPlatforms cfg env).getD i dummyBuildResult =
          buildPlatformResult cfg env (cfg.platforms.getD i Platform.ios)) ∧
      (∀ i, i < cfg.platforms.length → ∀ msg,
        (env (cfg.platforms.getD i Platform.ios) = .stageFail msg ∨
         env (cfg.platforms.getD i Platform.ios) = .crash msg) →
        ((buildAllPlatforms cfg env).getD i dummyBuildResult).success = false ∧
        ((buildAllPlatforms cfg env).getD i dummyBuildResult).error = some msg) ∧
      (∀ i, i < cfg.platforms.length → ∀ size,
        env (cfg.platforms.getD i Platform.ios) = .built size →
        ((buildAllPlatforms cfg env).getD i dummyBuildResult).success = true) ∧
      (exitCodeAfterBuild (buildAllPlatforms cfg env) = 1 ↔
        ∃ r ∈ buildAllPlatforms cfg env, r.success = false) := by
  intro cfg env _
  have hidx : ∀ i, i < cfg.platforms.length →
      (buildAllPlatforms cfg env).getD i dummyBuildResult =
        buildPlatformResult cfg env (cfg.platforms.getD i Platform.ios) :=
    fun i hi => getD_map_lt _ dummyBuildResult Platform.ios cfg.platforms i hi
  refine ⟨List.length_map _ _, hidx, ?_, ?_, ?_⟩
  · intro i hi msg hout
    rw [hidx i hi]
    unfold buildPlatformResult
    rcases hout with hout | hout <;> rw [hout] <;> exact ⟨rfl, rfl⟩
  · intro i hi size hout
    rw [hidx i hi]
    unfold buildPlatformResult
    rw [hout]
  · have key : 0 < ((buildAllPlatforms cfg env).filter (fun r => !r.success)).length ↔
        ∃ r ∈ buildAllPlatforms cfg env, r.success = false := by
      rw [List.length_pos_iff_exists_mem]
      constructor
      · rintro ⟨r, hr⟩
        rw [List.mem_filter] at hr
        exact ⟨r, hr.1, by simpa using hr.2⟩
      · rintro ⟨r, hrmem, hrf⟩
        exact ⟨r, List.mem_filter.mpr ⟨hrmem, by simp [hrf]⟩⟩
    unfold exitCodeAfterBuild
    constructor
    · intro h1
      by_cases hpos :
          0 < ((buildAllPlatforms cfg env).filter (fun r => !r.success)).length
      · exact key.mp hpos
      · rw [if_neg (by omega)] at h1
        exact absurd h1 (by omega)
    · intro hex
      rw [if_pos (key.mpr hex)]

/-- Witness for C4: two platforms, the iOS bundler crashes (captured per
the source's error message) while Android succeeds; both results are
present, only iOS failed, and the run exits 1. -/
theorem c4_witness :
    (buildAllPlatforms
        { platforms := [.ios, .android], version := "1.0.0", outputPath := "out" }
        (fun p => match p with
          | Platform.ios => PlatformOutcome.stageFail "Bundle build failed with code 1"
          | Platform.android => PlatformOutcome.built 42)).length = 2 ∧
    ((buildAllPlatforms
        { platforms := [.ios, .android], version := "1.0.0", outputPath := "out" }
        (fun p => match p with
          | Platform.ios => PlatformOutcome.stageFail "Bundle build failed with code 1"
          | Platform.android => PlatformOutcome.built 42)).getD 0
        dummyBuildResult).success = false ∧
    ((buildAllPlatforms
        { platforms := [.ios, .android], version := "1.0.0", outputPath := "out" }
        (fun p => match p with
          | Platform.ios => PlatformOutcome.stageFail "Bundle build failed with code 1"
          | Platform.android => PlatformOutcome.built 42)).getD 0
        dummyBuildResult).error = some "Bundle build failed with code 1" ∧
    ((buildAllPlatforms
        { platforms := [.ios, .android], version := "1.0.0", outputPath := "out" }
        (fun p => match p with
          | Platform.ios => PlatformOutcome.stageFail "Bundle build failed with code 1"
          | Platform.android => PlatformOutcome.built 42)).getD 1
        dummyBuildResult).success = true ∧
    exitCodeAfterBuild
      (buildAllPlatforms
        { platforms := [.ios, .android], version := "1.0.0", outputPath := "out" }
        (fun p => match p with
          | Platform.ios => PlatformOutcome.stageFail "Bundle build failed with code 1"
          | Platform.android => PlatformOutcome.built 42)) = 1 := by
  have h := c4_failure_isolation
    { platforms := [.ios, .android], version := "1.0.0", outputPath := "out" }
    (fun p => match p with
      | Platform.ios => PlatformOutcome.stageFail "Bundle build failed with code 1"
      | Platform.android => PlatformOutcome.built 42)
    (by decide)
  refine ⟨h.1, (h.2.2.1 0 (by decide) "Bundle build failed with code 1"
    (Or.inl rfl)).1,
    (h.2.2.1 0 (by decide) "Bundle build failed with code 1" (Or.inl rfl)).2,
    h.2.2.2.1 1 (by decide) 42 rfl, ?_⟩
  exact h.2.2.2.2.mpr
    ⟨(buildAllPlatforms
        { platforms := [.ios, .android], version := "1.0.0", outputPath := "out" }
        (fun p => match p with
          | Platform.ios => PlatformOutcome.stageFail "Bundle build failed with code 1"
          | Platform.android => PlatformOutcome.built 42)).getD 0 dummyBuildResult,
     by
       rw [h.2.1 0 (by decide)]
       exact List.mem_map_of_mem _ (by decide),
     (h.2.2.1 0 (by decide) "Bundle build failed with code 1" (Or.inl rfl)).1⟩

/-- C5 counterexample: a Metro density-bucket enumeration with one PNG file
produces a record whose optional `sha256` content-hash field is absent
(`none`) — only the legacy mtime token is present — refuting the claim
that every collected record carries the hex SHA-256 of the file's bytes. -/
theorem c5_counterexample :
    (analyzeMetroAssets metroFsEx).map (fun r => r.sha256) = [none] ∧
    (analyzeMetroAssets metroFsEx).map (fun r => r.hash) = ["1700000000000"] := by
  refine ⟨by decide, by decide⟩

/-- C5 (amended): only the supplementary-asset records built by
`copyAssets` carry the content hash — for every matched regular file the
record's `sha256` is the hex SHA-256 digest of the file's bytes, next to
the legacy mtime token — while every record built by the Metro
density-bucket enumeration has no `sha256` at all. -/
theorem c5_content_hash :
    ∀ (env : GlobEnv) (patterns : List String) (fs : MetroFs),
      (∀ pat, pat ∈ patterns → ∀ f, f ∈ env.glob pat →
        copyAssetRecord f ∈ copyAssets env patterns ∧
        (f.isFile = true →
          (copyAssetRecord f).sha256 = some (sha256hex f.content)) ∧
        (copyAssetRecord f).hash = toString f.mtimeMs) ∧
      (∀ r, r ∈ analyzeMetroAssets fs → r.sha256 = none) := by
  intro env patterns fs
  constructor
  · intro pat hpat f hf
    refine ⟨?_, ?_, rfl⟩
    · unfold copyAssets
      exact List.mem_flatMap.mpr ⟨pat, hpat, List.mem_map_of_mem _ hf⟩
    · intro hfile
      simp [copyAssetRecord, hfile]
  · intro r hr
    unfold analyzeMetroAssets at hr
    rw [List.mem_flatMap] at hr
    obtain ⟨dir, _, hr2⟩ := hr
    cases hm : fs.dirs dir with
    | none => rw [hm] at hr2; exact absurd hr2 (by simp)
    | some entries =>
        rw [hm] at hr2
        rw [List.mem_filterMap] at hr2
        obtain ⟨e, _, heq⟩ := hr2
        by_cases hfile : e.isFile = true
        · rw [if_pos hfile] at heq
          cases heq
          rfl
        · rw [if_neg hfile] at heq
          cases heq

/-- Witness for C5 at a concrete glob environment: the copied asset's
record is in the collection, its `sha256` is the digest of its bytes, and
its legacy token is the mtime string. -/
theorem c5_witness :
    copyAssetRecord
        { relPath := "assets/logo.png", isFile := true,
          mtimeMs := 1700000000001, content := [1, 2, 3] } ∈
      copyAssets globEnvEx ["assets/**/*"] ∧
    (copyAssetRecord
        { relPath := "assets/logo.png", isFile := true,
          mtimeMs := 1700000000001, content := [1, 2, 3] }).sha256 =
      some (sha256hex [1, 2, 3]) ∧
    (copyAssetRecord
        { relPath := "assets/logo.png", isFile := true,
          mtimeMs := 1700000000001, content := [1, 2, 3] }).hash =
      "1700000000001" := by
  have h := (c5_content_hash globEnvEx ["assets/**/*"] metroFsEmpty).1
    "assets/**/*" (List.mem_singleton.mpr rfl)
    { relPath := "assets/logo.png", isFile := true,
      mtimeMs := 1700000000001, content := [1, 2, 3] }
    (by simp [globEnvEx])
  exact ⟨h.1, h.2.1 rfl, h.2.2⟩

/-- C6: `validateConfig` fails with an error naming the offending field for
a missing project path, an unknown platform, an invalid semantic version,
or an invalid signature algorithm (a provided, truthy one: the source's JS
truthiness guard treats an absent or empty-string algorithm as unset and
skips the check, exactly as the version check does); but when signing is
enabled with `autoGenerate = false` and the configured private key file
does not exist, it only warns (returning success with the warning) and the
signature-aware build forces key auto-generation. -/
theorem c6_config_validation :
    ∀ (fs : ValidateFsEnv) (config : HotUpdateCfg),
      (fs.projectPathExists = false →
        validateConfig fs config =
          .error ("Project path does not exist: " ++ config.projectPath)) ∧
      (fs.projectPathExists = true → fs.packageJsonExists = true →
        fs.hasReactNativeDep = true →
        ∀ p, config.platforms.find? (fun q => !(q == "ios" || q == "android")) =
            some p →
        validateConfig fs config =
          .error ("Invalid platform: " ++ p ++ ". Valid platforms: ios, android")) ∧
      (fs.projectPathExists = true → fs.packageJsonExists = true →
        fs.hasReactNativeDep = true →
        config.platforms.find? (fun q => !(q == "ios" || q == "android")) = none →
        ∀ v, config.version = some v → v ≠ "" → semverValid v = false →
        validateConfig fs config =
          .error ("Invalid version format: " ++ v ++
                  ". Use semantic versioning (e.g. 1.0.0)")) ∧
      (fs.projectPathExists = true → fs.packageJsonExists = true →
        fs.hasReactNativeDep = true →
        config.platforms.find? (fun q => !(q == "ios" || q == "android")) = none →
        (optStrTruthy config.version &&
          !(semverValid (config.version.getD ""))) = false →
        ∀ sig a, config.signatureCfg = some sig → sig.enabled = true →
        sig.algorithm = some a → a ≠ "" →
        (a == "RSA-SHA256" || a == "ECDSA-SHA256") = false →
        validateConfig fs config =
          .error ("Invalid signature algorithm: " ++ a ++
                  ". Valid algorithms: RSA-SHA256, ECDSA-SHA256")) ∧
      (fs.projectPathExists = true → fs.packageJsonExists = true →
        fs.hasReactNativeDep = true →
        config.platforms.find? (fun q => !(q == "ios" || q == "android")) = none →
        (optStrTruthy config.version &&
          !(semverValid (config.version.getD ""))) = false →
        ∀ sig kp, config.signatureCfg = some sig → sig.enabled = true →
        (sig.algorithm = none ∨ sig.algorithm = some "" ∨
          ∃ a, sig.algorithm = some a ∧
            (a == "RSA-SHA256" || a == "ECDSA-SHA256") = true) →
        sig.autoGenerate = some false → sig.privateKeyPath = some kp → kp ≠ "" →
        fs.privateKeyExists kp = false →
        validateConfig fs config =
          .ok ["⚠️  Private key not found: " ++ kp ++ ". Will be auto-generated."] ∧
        effectiveAutoGenerate fs sig = true) := by
  intro fs config
  refine ⟨?_, ?_, ?_, ?_, ?_⟩
  · intro h
    unfold validateConfig
    rw [h]
    rw [if_pos (by decide)]
  · intro h1 h2 h3 p hp
    unfold validateConfig
    rw [h1, h2, h3, if_neg (by decide), if_neg (by decide), if_neg (by decide),
      hp]
  · intro h1 h2 h3 hfind v hv hvne hsem
    have htr : optStrTruthy (some v) = true := by
      simp [optStrTruthy, hvne]
    unfold validateConfig
    rw [h1, h2, h3, if_neg (by decide), if_neg (by decide), if_neg (by decide),
      hfind, hv, Option.getD_some, htr, hsem, if_pos (by decide)]
  · intro h1 h2 h3 hfind hver sig a hsig hen halg hane hbad
    have hatr : optStrTruthy (some a) = true := by
      simp [optStrTruthy, hane]
    unfold validateConfig
    rw [h1, h2, h3, if_neg (by decide), if_neg (by decide), if_neg (by decide),
      hfind, hver, if_neg (by decide)]
    simp only [hsig]
    rw [hen, if_pos rfl, halg, Option.getD_some, hatr, hbad,
      if_pos (by decide)]
  · intro h1 h2 h3 hfind hver sig kp hsig hen halg hauto hkp hkpne hkex
    have hwarn : validateConfig.validateKeyWarning fs sig =
        .ok ["⚠️  Private key not found: " ++ kp ++ ". Will be auto-generated."] := by
      have hkptr : optStrTruthy (some kp) = true := by
        simp [optStrTruthy, hkpne]
      unfold validateConfig.validateKeyWarning
      rw [hauto, hkp]
      simp only [Option.getD_some]
      rw [hkex, hkptr, if_pos (by decide)]
    constructor
    · unfold validateConfig
      rw [h1, h2, h3, if_neg (by decide), if_neg (by decide), if_neg (by decide),
        hfind, hver, if_neg (by decide)]
      simp only [hsig]
      rw [hen, if_pos rfl]
      rcases halg with halg | halg | ⟨a, halg, hgood⟩
      · rw [halg, if_neg (by decide)]
        exact hwarn
      · rw [halg, if_neg (by decide)]
        exact hwarn
      · rw [halg, Option.getD_some, hgood, if_neg (by simp)]
        exact hwarn
    · simp [effectiveAutoGenerate, hkp, optStrTruthy, hkpne, hkex]

/-- Witness for C6: a fully valid configuration whose configured private
key file is missing while `autoGenerate = false` — validation succeeds with
exactly the warning, and auto-generation is forced. -/
theorem c6_witness :
    validateConfig
        { projectPathExists := true, packageJsonExists := true,
          hasReactNativeDep := true, privateKeyExists := fun _ => false }
        { projectPath := "./app", platforms := ["ios"],
          version := some "1.0.0",
          signatureCfg := some
            { enabled := true, algorithm := some "RSA-SHA256",
              privateKeyPath := some "./keys/private.pem",
              autoGenerate := some false } } =
      .ok ["⚠️  Private key not found: " ++ "./keys/private.pem" ++
           ". Will be auto-generated."] ∧
    effectiveAutoGenerate
        { projectPathExists := true, packageJsonExists := true,
          hasReactNativeDep := true, privateKeyExists := fun _ => false }
        { enabled := true, algorithm := some "RSA-SHA256",
          privateKeyPath := some "./keys/private.pem",
          autoGenerate := some false } = true :=
  (c6_config_validation
    { projectPathExists := true, packageJsonExists := true,
      hasReactNativeDep := true, privateKeyExists := fun _ => false }
    { projectPath := "./app", platforms := ["ios"],
      version := some "1.0.0",
      signatureCfg := some
        { enabled := true, algorithm := some "RSA-SHA256",
          privateKeyPath := some "./keys/private.pem",
          autoGenerate := some false } }).2.2.2.2 rfl rfl rfl (by decide)
    (by decide)
    { enabled := true, algorithm := some "RSA-SHA256",
      privateKeyPath := some "./keys/private.pem",
      autoGenerate := some false }
    "./keys/private.pem" rfl rfl
    (Or.inr (Or.inr ⟨"RSA-SHA256", rfl, by decide⟩)) rfl rfl
    (by decide) rfl

/-- C7 (evaluating the code at the failing input): the reference-extraction
regexes require a literal `]` after the closing quote, so a syntactically
valid `require("./logo.png")` statement yields no extracted reference (and
hence no warning even with an empty asset catalog), while the malformed
text `require("./logo.png"]` is what the pattern actually matches. -/
theorem c7_reference_extraction_failing_input :
    extractAssetRefs "require(\"./logo.png\")" = [] ∧
    extractAssetRefs "require(\"./logo.png\"]" = ["./logo.png"] ∧
    (verifyAssetConsistency "require(\"./logo.png\")" metroFsEmpty).2 = [] := by
  refine ⟨by decide, by decide, by decide⟩

/-- The three signature fields are absent from a stripped field list. -/
theorem strip_lookup_none (k : String) (hk : isSignatureField k = true) :
    ∀ l : List (String × JsonVal), (stripSignatureFields l).lookup k = none := by
  intro l
  induction l with
  | nil => rfl
  | cons p rest ih =>
      unfold stripSignatureFields at ih ⊢
      by_cases hp : isSignatureField p.1 = true
      · simp only [List.filter_cons, hp, Bool.not_true]
        exact ih
      · have hp' : isSignatureField p.1 = false := by
          cases hv : isSignatureField p.1 with
          | true => exact absurd hv hp
          | false => rfl
        simp only [List.filter_cons, hp', Bool.not_false]
        cases p with
        | mk pk pv =>
            simp only [List.lookup]
            have : (k == pk) = false := by
              simp only [beq_eq_false_iff_ne, ne_eq]
              intro hkp
              rw [← hkp] at hp'
              rw [hk] at hp'
              cases hp'
            rw [this]
            exact ih

/-- Lookup skips an association-list prefix that lacks the key. -/
theorem lookup_append_left_none {β : Type} (k : String) :
    ∀ (l1 l2 : List (String × β)), l1.lookup k = none →
      (l1 ++ l2).lookup k = l2.lookup k := by
  intro l1
  induction l1 with
  | nil => intro l2 _; rfl
  | cons p rest ih =>
      intro l2 h
      cases p with
      | mk a b =>
          simp only [List.lookup, List.cons_append] at h ⊢
          cases hka : k == a with
          | true => rw [hka] at h; cases h
          | false =>
              rw [hka] at h
              exact ih l2 h

/-- C8: `signData` returns exactly `ALGORITHM ++ ":" ++ base64(signature
bytes)` as the signature string, the public key re-derived from the private
key, and the `Date.now()` timestamp; `signManifest` embeds exactly these
three values as the `signature`, `publicKey` and `signatureTimestamp`
fields of the stripped manifest. -/
theorem c8_signature_format :
    ∀ (C : CryptoModel) (alg : SigAlgorithm) (data sk : String) (now : Nat)
      (l : List (String × JsonVal)),
      signData C alg data sk now =
        .ok { signature := alg.toName ++ ":" ++ b64encode (C.sign "SHA256" sk data),
              algorithm := alg.toName,
              publicKey := C.derivePublic sk,
              timestamp := now } ∧
      signManifest C alg l sk now =
        .ok (stripSignatureFields l ++
              [("signature", .str (alg.toName ++ ":" ++
                  b64encode (C.sign "SHA256" sk (canonicalSigningString l)))),
               ("publicKey", .str (C.derivePublic sk)),
               ("signatureTimestamp", .num (Int.ofNat now))],
             { signature := alg.toName ++ ":" ++
                 b64encode (C.sign "SHA256" sk (canonicalSigningString l)),
               algorithm := alg.toName,
               publicKey := C.derivePublic sk,
               timestamp := now }) ∧
      (stripSignatureFields l ++
          [("signature", JsonVal.str (alg.toName ++ ":" ++
              b64encode (C.sign "SHA256" sk (canonicalSigningString l)))),
           ("publicKey", JsonVal.str (C.derivePublic sk)),
           ("signatureTimestamp", JsonVal.num (Int.ofNat now))]).lookup
          "signature" =
        some (JsonVal.str (alg.toName ++ ":" ++
          b64encode (C.sign "SHA256" sk (canonicalSigningString l)))) ∧
      (stripSignatureFields l ++
          [("signature", JsonVal.str (alg.toName ++ ":" ++
              b64encode (C.sign "SHA256" sk (canonicalSigningString l)))),
           ("publicKey", JsonVal.str (C.derivePublic sk)),
           ("signatureTimestamp", JsonVal.num (Int.ofNat now))]).lookup
          "publicKey" =
        some (JsonVal.str (C.derivePublic sk)) ∧
      (stripSignatureFields l ++
          [("signature", JsonVal.str (alg.toName ++ ":" ++
              b64encode (C.sign "SHA256" sk (canonicalSigningString l)))),
           ("publicKey", JsonVal.str (C.derivePublic sk)),
           ("signatureTimestamp", JsonVal.num (Int.ofNat now))]).lookup
          "signatureTimestamp" =
        some (JsonVal.num (Int.ofNat now)) := by
  intro C alg data sk now l
  refine ⟨?_, ?_, ?_, ?_, ?_⟩
  · cases alg <;> rfl
  · cases alg <;> rfl
  · rw [lookup_append_left_none _ _ _ (strip_lookup_none _ (by decide) l)]
    rfl
  · rw [lookup_append_left_none _ _ _ (strip_lookup_none _ (by decide) l)]
    rfl
  · rw [lookup_append_left_none _ _ _ (strip_lookup_none _ (by decide) l)]
    rfl

/-- Folding addition of a component equals the sum of the mapped list. -/
theorem foldl_add_eq_sum {α : Type} (f : α → Nat) (l : List α) :
    l.foldl (fun s p => s + f p) 0 = (l.map f).sum := by
  rw [List.sum_eq_foldl, List.foldl_map]

/-- C9: the generated package index counts every input package and its
summary totals are the arithmetic sums of the packages' bundle sizes and
asset counts. -/
theorem c9_package_index_totals :
    ∀ (packages : List PackageInfo) (generatedAt : String),
      (generatePackageManifest packages generatedAt).totalPackages =
        packages.length ∧
      (generatePackageManifest packages generatedAt).summary.totalSize =
        (packages.map (fun p => p.bundleSize)).sum ∧
      (generatePackageManifest packages generatedAt).summary.totalAssets =
        (packages.map (fun p => p.assetCount)).sum := by
  intro packages generatedAt
  refine ⟨rfl, ?_, ?_⟩
  · show packages.foldl (fun s p => s + p.bundleSize) 0 = _
    exact foldl_add_eq_sum (fun p => p.bundleSize) packages
  · show packages.foldl (fun s p => s + p.assetCount) 0 = _
    exact foldl_add_eq_sum (fun p => p.assetCount) packages

/-- C10: the ECDSA named-curve selection maps 256 to `prime256v1`, 384 to
`secp384r1`, and every other key size — including the constructor's default
2048 — silently to `secp521r1`; `generateAndSaveKeyPair` then requests an
EC key pair for that curve without any unsupported-key-size error. -/
theorem c10_ecdsa_curve_selection :
    ecdsaNamedCurve 256 = "prime256v1" ∧
    ecdsaNamedCurve 384 = "secp384r1" ∧
    (∀ k, k ≠ 256 → k ≠ 384 → ecdsaNamedCurve k = "secp521r1") ∧
    (mkDigitalSignatureConfig { algorithm := .ecdsaSHA256 }).keySize = 2048 ∧
    keyGenRequest (mkDigitalSignatureConfig { algorithm := .ecdsaSHA256 }) =
      .ec "secp521r1" ∧
    (∀ ks, keyGenRequest { algorithm := .ecdsaSHA256, keySize := ks } =
      .ec (ecdsaNamedCurve ks)) := by
  refine ⟨rfl, rfl, ?_, rfl, rfl, fun ks => rfl⟩
  intro k h1 h2
  unfold ecdsaNamedCurve
  rw [if_neg h1, if_neg h2]

/-- Witness for C10: the constructor's default key size 2048 selects
`secp521r1`. -/
theorem c10_witness : ecdsaNamedCurve 2048 = "secp521r1" :=
  c10_ecdsa_curve_selection.2.2.1 2048 (by decide) (by decide)

set_option maxRecDepth 10000 in
/-- Sanity check of the SHA-256 embedding on the specification's test
vector: hashing the 3-byte input `"abc"` yields the expected digest. -/
theorem sha256hex_abc :
    sha256hex [97, 98, 99] =
      "ba7816bf8f01cfea414140de5dae2223b00361a396177a9cb410ff61f20015ad" := by
  decide
